import Mathlib

/-!
Verification of the ducker audio effect (src/src/dsp/ducker.c).

Shallow embedding conventions:
* C `float` values are modelled as exact rationals (`ℚ`); C `int` as `ℤ`;
  MIDI bytes as `ℕ`.
* A C cast `(int)x` truncates toward zero; it is modelled by `cInt`.
* `snprintf "%.Nf"` formatting is modelled as decimal rounding to N places
  (round half away from zero for the nonnegative values that occur here).
* The in-place stereo buffer of `v2_process_block` becomes a list of
  `ℤ × ℤ` frames, returned alongside the final state.
-/

/-- Envelope phases (`PHASE_IDLE` .. `PHASE_RELEASE` in ducker.c). -/
inductive Phase where
  | Idle
  | Attack
  | Hold
  | Release
deriving DecidableEq, Repr

/-- Curve types (`CURVE_LINEAR` .. `CURVE_PUMP`). -/
inductive Curve where
  | Linear
  | Expo
  | SCurve
  | Pump
deriving DecidableEq, Repr

/-- Trigger modes (`MODE_TRIGGER`, `MODE_GATE`). -/
inductive Mode where
  | Trigger
  | Gate
deriving DecidableEq, Repr

/-- The `ducker_instance_t` struct (module_dir omitted: never read by the
DSP logic). Field names and comments follow ducker.c lines 41-63. -/
structure Ducker where
  channel : ℤ          -- 0=omni, 1-16
  trigger_note : ℤ     -- 0-127
  mode : Mode
  depth : ℚ            -- 0.0-1.0
  attack : ℚ           -- 0.0-1.0 → 0-50ms
  hold : ℚ             -- 0.0-1.0 → 0-500ms
  release : ℚ          -- 0.0-1.0 → 0-1000ms
  curve : Curve
  vel_sens : ℚ         -- 0.0-1.0
  phase : Phase
  phase_pos : ℤ        -- sample counter within phase
  phase_len : ℤ        -- total samples in current phase
  vel_depth : ℚ        -- computed depth for current trigger
  envelope : ℚ         -- current envelope value: 1.0=pass, 0.0=max duck
  active_notes : ℤ     -- count of held notes (for gate mode)
deriving DecidableEq, Repr

/-- C cast `(int)q`: truncation toward zero. -/
def cInt (q : ℚ) : ℤ := if q < 0 then -⌊-q⌋ else ⌊q⌋

/-- `clampf` from ducker.c lines 104-108. -/
def clampf (x lo hi : ℚ) : ℚ := if x < lo then lo else if hi < x then hi else x

/-- `ms_to_samples` (line 110): `(int)(ms * (SAMPLE_RATE / 1000.0f))`. -/
def ms_to_samples (ms : ℚ) : ℤ := cInt (ms * (44100 / 1000))

/-- `attack_samples` (line 114): attack scaled to 0-50ms. -/
def attack_samples (s : Ducker) : ℤ := ms_to_samples (s.attack * 50)

/-- `hold_samples` (line 118): hold scaled to 0-500ms. -/
def hold_samples (s : Ducker) : ℤ := ms_to_samples (s.hold * 500)

/-- `release_samples` (line 122): release scaled to 0-1000ms. -/
def release_samples (s : Ducker) : ℤ := ms_to_samples (s.release * 1000)

/-- `shape_curve` (lines 131-153): shape a 0-1 time value with the selected
curve; `t` is clamped to [0,1] first. -/
def shape_curve (curve : Curve) (t : ℚ) (is_release : Bool) : ℚ :=
  let t := clampf t 0 1
  match curve with
  | Curve.Expo => t * t
  | Curve.SCurve => t * t * (3 - 2 * t)
  | Curve.Pump =>
      if is_release then
        let inv := 1 - t
        1 - inv * inv * inv
      else t
  | Curve.Linear => t

/-- `start_attack` (lines 155-172): enter Attack; on zero attack jump to
Hold, and on zero hold in trigger mode jump further to Release. -/
def start_attack (s : Ducker) : Ducker :=
  let s1 := { s with phase := Phase.Attack, phase_pos := 0, phase_len := attack_samples s }
  if s1.phase_len ≤ 0 then
    let s2 := { s1 with envelope := 1 - s1.vel_depth, phase := Phase.Hold,
                        phase_pos := 0, phase_len := hold_samples s1 }
    if s2.phase_len ≤ 0 ∧ s2.mode = Mode.Trigger then
      { s2 with phase := Phase.Release, phase_pos := 0, phase_len := release_samples s2 }
    else s2
  else s1

/-- `start_release` (lines 174-182): enter Release; on zero release snap to
Idle with envelope 1. -/
def start_release (s : Ducker) : Ducker :=
  let s1 := { s with phase := Phase.Release, phase_pos := 0, phase_len := release_samples s }
  if s1.phase_len ≤ 0 then { s1 with phase := Phase.Idle, envelope := 1 }
  else s1

/-- The per-sample envelope advance: the `switch (inst->phase)` body of
`v2_process_block` (lines 230-283), executed once per frame. -/
def advance (s : Ducker) : Ducker :=
  match s.phase with
  | Phase.Attack =>
      let s1 :=
        if 0 < s.phase_len then
          { s with envelope := 1 - s.vel_depth *
              shape_curve s.curve ((s.phase_pos : ℚ) / (s.phase_len : ℚ)) false }
        else s
      let s2 := { s1 with phase_pos := s1.phase_pos + 1 }
      if s2.phase_len ≤ s2.phase_pos then
        let s3 := { s2 with envelope := 1 - s2.vel_depth, phase := Phase.Hold,
                            phase_pos := 0, phase_len := hold_samples s2 }
        if s3.phase_len ≤ 0 ∧ s3.mode = Mode.Trigger then
          { s3 with phase := Phase.Release, phase_pos := 0, phase_len := release_samples s3 }
        else s3
      else s2
  | Phase.Hold =>
      let s1 := { s with envelope := 1 - s.vel_depth, phase_pos := s.phase_pos + 1 }
      if s1.mode = Mode.Trigger ∧ s1.phase_len ≤ s1.phase_pos then
        { s1 with phase := Phase.Release, phase_pos := 0, phase_len := release_samples s1 }
      else s1
  | Phase.Release =>
      let s1 :=
        if 0 < s.phase_len then
          { s with envelope := (1 - s.vel_depth) + s.vel_depth *
              shape_curve s.curve ((s.phase_pos : ℚ) / (s.phase_len : ℚ)) true }
        else s
      let s2 := { s1 with phase_pos := s1.phase_pos + 1 }
      if s2.phase_len ≤ s2.phase_pos then
        { s2 with phase := Phase.Idle, envelope := 1 }
      else s2
  | Phase.Idle => s

/-- The clamp to the int16 range (lines 291-294): clamp above 32767 first,
then below -32768. -/
def clamp16 (v : ℚ) : ℚ :=
  if (if 32767 < v then (32767 : ℚ) else v) < -32768 then (-32768 : ℚ)
  else (if 32767 < v then (32767 : ℚ) else v)

/-- One frame of `v2_process_block` (lines 228-298): advance the envelope,
multiply both channel samples by the gain, clamp to the int16 range, and
truncate back to integers. Returns the new state and the two outputs. -/
def processSample (s : Ducker) (l r : ℤ) : Ducker × ℤ × ℤ :=
  (advance s,
   cInt (clamp16 ((l : ℚ) * (advance s).envelope)),
   cInt (clamp16 ((r : ℚ) * (advance s).envelope)))

/-- `v2_process_block` (lines 224-299) over a list of stereo frames. -/
def v2_process_block (s : Ducker) : List (ℤ × ℤ) → List (ℤ × ℤ) × Ducker
  | [] => ([], s)
  | f :: rest =>
      let p := processSample s f.1 f.2
      let q := v2_process_block p.1 rest
      ((p.2.1, p.2.2) :: q.1, q.2)

/-- `ducker_on_midi` (lines 303-342). The message is a list of bytes;
messages shorter than 3 bytes are dropped. -/
def ducker_on_midi (s : Ducker) (msg : List ℕ) : Ducker :=
  if msg.length < 3 then s
  else
    let status : ℕ := msg.getD 0 0 &&& 0xF0
    let ch : ℤ := ((msg.getD 0 0 &&& 0x0F : ℕ) : ℤ) + 1
    let note : ℤ := (msg.getD 1 0 : ℤ)
    let vel : ℕ := msg.getD 2 0
    if 0 < s.channel ∧ ch ≠ s.channel then s
    else if note ≠ s.trigger_note then s
    else if status = 0x90 ∧ 0 < vel then
      let s1 := { s with active_notes := s.active_notes + 1 }
      let vel_scale : ℚ :=
        if 0 < s1.vel_sens then 1 - s1.vel_sens + s1.vel_sens * ((vel : ℚ) / 127)
        else 1
      let s2 := { s1 with vel_depth := s1.depth * vel_scale }
      start_attack s2
    else if status = 0x80 ∨ (status = 0x90 ∧ vel = 0) then
      let s1 := if 0 < s.active_notes then { s with active_notes := s.active_notes - 1 } else s
      if s1.mode = Mode.Gate ∧ s1.active_notes = 0 ∧
          (s1.phase = Phase.Hold ∨ s1.phase = Phase.Attack) then
        start_release s1
      else s1
    else s

/-- The decrement step of a note-off (line 333): floored at 0. -/
def noteOffDec (s : Ducker) : Ducker :=
  if 0 < s.active_notes then { s with active_notes := s.active_notes - 1 } else s

/-- The note-off half of `ducker_on_midi` (lines 331-341): decrement the
held-note count (floored at 0) and, in Gate mode when the last note is
released during Attack or Hold, start the release. -/
def noteOffAction (s : Ducker) : Ducker :=
  if (noteOffDec s).mode = Mode.Gate ∧ (noteOffDec s).active_notes = 0 ∧
      ((noteOffDec s).phase = Phase.Hold ∨ (noteOffDec s).phase = Phase.Attack) then
    start_release (noteOffDec s)
  else noteOffDec s

/-- `v2_create_instance` defaults (lines 199-211); calloc zeroes the
remaining envelope fields. -/
def v2_create_instance : Ducker :=
  { channel := 1
    trigger_note := 36
    mode := Mode.Trigger
    depth := 1
    attack := 0.1
    hold := 0.2
    release := 0.3
    curve := Curve.Linear
    vel_sens := 0
    phase := Phase.Idle
    phase_pos := 0
    phase_len := 0
    vel_depth := 0
    envelope := 1
    active_notes := 0 }

/-- A parameter configuration: the nine user-settable fields. -/
structure Config where
  channel : ℤ
  trigger_note : ℤ
  mode : Mode
  depth : ℚ
  attack : ℚ
  hold : ℚ
  release : ℚ
  curve : Curve
  vel_sens : ℚ
deriving DecidableEq, Repr

/-- Overwrite the parameter fields of a state with a configuration. -/
def withConfig (s : Ducker) (c : Config) : Ducker :=
  { s with channel := c.channel, trigger_note := c.trigger_note, mode := c.mode,
           depth := c.depth, attack := c.attack, hold := c.hold,
           release := c.release, curve := c.curve, vel_sens := c.vel_sens }

/-- The parameter fields of a state. -/
def configOf (s : Ducker) : Config :=
  ⟨s.channel, s.trigger_note, s.mode, s.depth, s.attack, s.hold, s.release,
   s.curve, s.vel_sens⟩

/-- The domains the spec gives for each parameter (spec §3); every value
writable through `v2_set_param`'s clamping paths lies in them. -/
def ValidConfig (c : Config) : Prop :=
  0 ≤ c.channel ∧ c.channel ≤ 16 ∧ 0 ≤ c.trigger_note ∧ c.trigger_note ≤ 127 ∧
  0 ≤ c.depth ∧ c.depth ≤ 1 ∧ 0 ≤ c.attack ∧ c.attack ≤ 1 ∧
  0 ≤ c.hold ∧ c.hold ≤ 1 ∧ 0 ≤ c.release ∧ c.release ≤ 1 ∧
  0 ≤ c.vel_sens ∧ c.vel_sens ≤ 1

instance (c : Config) : Decidable (ValidConfig c) := by
  unfold ValidConfig; infer_instance

/-- Events the host can deliver to a live instance: a raw MIDI message or
one sample tick of the block processor. -/
inductive Ev where
  | midi (msg : List ℕ)
  | tick
deriving DecidableEq, Repr

/-- Per the standard MIDI note-message convention (spec §6), data bytes of
a wire message are 7-bit. Truncated messages carry no data constraint. -/
def ValidEv : Ev → Prop
  | Ev.midi m => m.length < 3 ∨ (m.getD 1 0 ≤ 127 ∧ m.getD 2 0 ≤ 127)
  | Ev.tick => True

instance (e : Ev) : Decidable (ValidEv e) := by
  cases e <;> unfold ValidEv <;> infer_instance

/-- Apply one event to the state. -/
def applyEv (s : Ducker) : Ev → Ducker
  | Ev.midi m => ducker_on_midi s m
  | Ev.tick => advance s

/-- Run a list of events left to right. -/
def runEvents (s : Ducker) : List Ev → Ducker
  | [] => s
  | e :: rest => runEvents (applyEv s e) rest

/-- `Reachable c s`: `s` arises from a freshly created instance configured
with `c` by some sequence of valid MIDI messages and processed samples. -/
def Reachable (c : Config) (s : Ducker) : Prop :=
  ∃ evs : List Ev, (∀ e ∈ evs, ValidEv e) ∧
    runEvents (withConfig v2_create_instance c) evs = s

/-- `advanceN s n`: the state after processing `n` samples. -/
def advanceN (s : Ducker) : ℕ → Ducker
  | 0 => s
  | n + 1 => advanceN (advance s) n

/-- The gain multiplied into sample index `n` of a block started at state
`s`: the envelope value after the advance of that sample (line 286). -/
def gainAt (s : Ducker) (n : ℕ) : ℚ := (advanceN s (n + 1)).envelope

/-! ### Envelope-state invariants -/

/-- Phase/position relation actually maintained by the code: Attack always
has `0 ≤ pos < len`; Hold has `0 ≤ pos`, with `pos < len` in Trigger mode
(Gate-mode Hold dwells, its position growing without bound); Release has
`pos < len` or was just entered with `pos = 0` and a nonpositive length
(it then collapses to Idle on the next sample). -/
def EnvInv (s : Ducker) : Prop :=
  (s.phase = Phase.Attack → 0 ≤ s.phase_pos ∧ s.phase_pos < s.phase_len) ∧
  (s.phase = Phase.Hold → 0 ≤ s.phase_pos ∧
    (s.mode = Mode.Trigger → s.phase_pos < s.phase_len)) ∧
  (s.phase = Phase.Release → 0 ≤ s.phase_pos ∧
    (s.phase_pos < s.phase_len ∨ (s.phase_pos = 0 ∧ s.phase_len ≤ 0)))

/-- The invariant claimed by the spec (§3): `pos < len` whenever `len > 0`
and the phase is not Idle, and no phase with `len ≤ 0` is ever entered. -/
def ClaimedPhaseInv (s : Ducker) : Prop :=
  ((0 < s.phase_len ∧ s.phase ≠ Phase.Idle) → s.phase_pos < s.phase_len) ∧
  (s.phase ≠ Phase.Idle → 0 < s.phase_len)

/-- In Gate mode, Release is only ever started on the note-off that brings
`active_notes` to 0, so Release and Idle states carry `active_notes = 0`. -/
def GateIdleInv (s : Ducker) : Prop :=
  s.mode = Mode.Gate → (s.phase = Phase.Release ∨ s.phase = Phase.Idle) →
    s.active_notes = 0

/-- Full reachability invariant for an instance configured with `c`:
parameters never change, `vel_depth` and `envelope` stay in [0,1],
`active_notes` stays nonnegative, and the phase invariants hold. -/
def DuckerInv (c : Config) (s : Ducker) : Prop :=
  configOf s = c ∧ 0 ≤ s.vel_depth ∧ s.vel_depth ≤ 1 ∧
  0 ≤ s.envelope ∧ s.envelope ≤ 1 ∧ 0 ≤ s.active_notes ∧
  EnvInv s ∧ GateIdleInv s

/-! ### Sample count until Idle (Trigger mode) -/

/-- Samples the block processor spends in a phase entered at `pos` with
length `len` before transitioning out (it always takes at least one). -/
def phaseSteps (pos len : ℤ) : ℕ := max (len - pos).toNat 1

/-- For Trigger mode: number of advances until the state machine reaches
Idle (0 when already Idle). -/
def stepsFrom (s : Ducker) : ℕ :=
  match s.phase with
  | Phase.Idle => 0
  | Phase.Attack =>
      phaseSteps s.phase_pos s.phase_len +
        (if hold_samples s ≤ 0 then 0 else (hold_samples s).toNat) +
        phaseSteps 0 (release_samples s)
  | Phase.Hold => phaseSteps s.phase_pos s.phase_len + phaseSteps 0 (release_samples s)
  | Phase.Release => phaseSteps s.phase_pos s.phase_len

/-! ### Serialization model (the "state" parameter)

`v2_get_param(…, "state")` prints the nine parameters as a flat JSON
object, ints with `%d` and floats with `%.3f` (lines 473-481);
`v2_set_param(…, "state", …)` scans that object and applies each field
(lines 398-436). Since the serialized form always carries every field as
a plain number, the `json_get_string` branches fail and the numeric
branches apply; the composition is modelled on a structured record of the
nine printed numbers. -/

/-- Decimal rounding to `10^-n` places: the numeric value printed by
`"%.nf"` (round half away from zero for the nonnegative values used). -/
def roundDec (n : ℕ) (q : ℚ) : ℚ := (⌊q * 10 ^ n + 1 / 2⌋ : ℚ) / 10 ^ n

/-- Mode enum as serialized by `%d`. -/
def modeToInt : Mode → ℤ
  | Mode.Trigger => 0
  | Mode.Gate => 1

/-- Curve enum as serialized by `%d`. -/
def curveToInt : Curve → ℤ
  | Curve.Linear => 0
  | Curve.Expo => 1
  | Curve.SCurve => 2
  | Curve.Pump => 3

/-- Int back to mode; faithful on the clamped range {0,1} produced by the
state loader. -/
def intToMode (n : ℤ) : Mode := if n = 1 then Mode.Gate else Mode.Trigger

/-- Int back to curve; faithful on the clamped range [0,3]. -/
def intToCurve (n : ℤ) : Curve :=
  if n = 1 then Curve.Expo
  else if n = 2 then Curve.SCurve
  else if n = 3 then Curve.Pump
  else Curve.Linear

/-- The nine numbers of a serialized `"state"` object, in print order. -/
structure SerState where
  channel : ℚ
  trigger_note : ℚ
  mode : ℚ
  depth : ℚ
  attack : ℚ
  hold : ℚ
  release : ℚ
  curve : ℚ
  vel_sens : ℚ
deriving DecidableEq, Repr

/-- The `"state"` object printed by `v2_get_param` (lines 473-481):
ints via `%d`, floats via `%.3f`. -/
def serializeState (s : Ducker) : SerState :=
  ⟨(s.channel : ℚ), (s.trigger_note : ℚ), (modeToInt s.mode : ℚ),
   roundDec 3 s.depth, roundDec 3 s.attack, roundDec 3 s.hold,
   roundDec 3 s.release, (curveToInt s.curve : ℚ), roundDec 3 s.vel_sens⟩

/-- The `"state"` branch of `v2_set_param` (lines 398-436) applied to a
serialized state whose fields are all present and numeric. -/
def v2_set_param_state (s : Ducker) (st : SerState) : Ducker :=
  { s with
    channel := cInt (clampf st.channel 0 16),
    trigger_note := cInt (clampf st.trigger_note 0 127),
    mode := intToMode (cInt (clampf st.mode 0 1)),
    depth := clampf st.depth 0 1,
    attack := clampf st.attack 0 1,
    hold := clampf st.hold 0 1,
    release := clampf st.release 0 1,
    curve := intToCurve (cInt (clampf st.curve 0 3)),
    vel_sens := clampf st.vel_sens 0 1 }

/-- `channel_name` (lines 439-446). -/
def channel_name (ch : ℤ) : String :=
  if ch < 0 ∨ 16 < ch then "Omni"
  else ["Omni", "1", "2", "3", "4", "5", "6", "7", "8", "9", "10", "11",
        "12", "13", "14", "15", "16"].getD ch.toNat "Omni"

/-- `curve_name` (lines 448-452); the enum is always in range here. -/
def curve_name : Curve → String
  | Curve.Linear => "Linear"
  | Curve.Expo => "Expo"
  | Curve.SCurve => "S-Curve"
  | Curve.Pump => "Pump"

/-- `mode_name` (lines 454-456). -/
def mode_name (m : Mode) : String :=
  if m = Mode.Gate then "Gate" else "Trigger"

/-- The string printed by `snprintf "%.2f"` for the nonnegative values
used by the parameter getters. -/
def fmt2 (q : ℚ) : String :=
  let n : ℤ := ⌊q * 100 + 1 / 2⌋
  let sign := if n < 0 then "-" else ""
  let a := n.natAbs
  sign ++ toString (a / 100) ++ "." ++
    (if a % 100 < 10 then "0" else "") ++ toString (a % 100)

/-- `v2_get_param` (lines 458-471) for the per-field keys and `"name"`.
The `"state"` key is modelled by `serializeState`; the static
`"ui_hierarchy"`/`"chain_params"` metadata is out of scope. -/
def v2_get_param (s : Ducker) (key : String) : Option String :=
  if key = "channel" then some (channel_name s.channel)
  else if key = "trigger_note" then some (toString s.trigger_note)
  else if key = "mode" then some (mode_name s.mode)
  else if key = "depth" then some (fmt2 s.depth)
  else if key = "attack" then some (fmt2 s.attack)
  else if key = "hold" then some (fmt2 s.hold)
  else if key = "release" then some (fmt2 s.release)
  else if key = "curve" then some (curve_name s.curve)
  else if key = "vel_sens" then some (fmt2 s.vel_sens)
  else if key = "name" then some "DUCKER"
  else none

/-- Serialize an instance and load the result into a fresh instance. -/
def roundTrip (s : Ducker) : Ducker :=
  v2_set_param_state v2_create_instance (serializeState s)

/-- All float parameters exactly representable at 3 decimal places (the
precision of the serialized form). -/
def threeDecimal (s : Ducker) : Prop :=
  roundDec 3 s.depth = s.depth ∧ roundDec 3 s.attack = s.attack ∧
  roundDec 3 s.hold = s.hold ∧ roundDec 3 s.release = s.release ∧
  roundDec 3 s.vel_sens = s.vel_sens

instance (s : Ducker) : Decidable (threeDecimal s) := by
  unfold threeDecimal; infer_instance

/-! ### Concrete scenario states -/

/-- Spec §8 concrete scenario configuration: channel 1, note 36, Trigger,
depth 1, attack 0, hold 0.1 (2205 samples at 44100Hz), release 0, Linear. -/
def c1Config : Config := ⟨1, 36, Mode.Trigger, 1, 0, 0.1, 0, Curve.Linear, 0⟩

/-- State right after the qualifying note-on of the concrete scenario. -/
def c1Start : Ducker :=
  ducker_on_midi (withConfig v2_create_instance c1Config) [0x90, 36, 127]

/-- The Hold-phase states the scenario walks through: position `k` of the
2205-sample hold with a full-depth (0.0) envelope. -/
def c1Hold (k : ℤ) : Ducker :=
  { channel := 1, trigger_note := 36, mode := Mode.Trigger, depth := 1,
    attack := 0, hold := 0.1, release := 0, curve := Curve.Linear,
    vel_sens := 0, phase := Phase.Hold, phase_pos := k, phase_len := 2205,
    vel_depth := 1, envelope := 0, active_notes := 1 }

/-- Gate-mode variant of the concrete scenario (spec §8). -/
def gateConfig : Config := ⟨1, 36, Mode.Gate, 1, 0, 0.1, 0, Curve.Linear, 0⟩

/-- All-zero-duration Trigger configuration, used to exhibit a reachable
zero-length Release phase. -/
def zeroConfig : Config := ⟨1, 36, Mode.Trigger, 1, 0, 0, 0, Curve.Linear, 0⟩

/-- The state one qualifying note-on reaches under `zeroConfig`. -/
def zeroState : Ducker :=
  ducker_on_midi (withConfig v2_create_instance zeroConfig) [0x90, 36, 127]

/-- Default instance with full velocity sensitivity, for the velocity
scaling scenario. -/
def velState : Ducker := { v2_create_instance with vel_sens := 1 }

/-- Default configuration with `depth = 0.0246`: a valid depth needing
more than 3 decimal places. -/
def c8State : Ducker := { v2_create_instance with depth := 0.0246 }

/-! ## Helper lemmas -/

theorem advanceN_succ_right (s : Ducker) (n : ℕ) :
    advanceN s (n + 1) = advance (advanceN s n) := by
  induction n generalizing s with
  | zero => rfl
  | succ n ih => rw [show n + 1 + 1 = n + 1 + 1 from rfl, advanceN, ih, advanceN]

theorem idle_fixed (s : Ducker) (h : s.phase = Phase.Idle) : advance s = s := by
  unfold advance
  rw [h]

theorem advanceN_idle (s : Ducker) (h : s.phase = Phase.Idle) (n : ℕ) :
    advanceN s n = s := by
  induction n with
  | zero => rfl
  | succ n ih => rw [advanceN_succ_right, ih, idle_fixed s h]

/-- `advance` touches only the envelope-progress fields; the parameters,
`vel_depth` and `active_notes` are unchanged. -/
theorem advance_keeps (s : Ducker) :
    (advance s).channel = s.channel ∧ (advance s).trigger_note = s.trigger_note ∧
    (advance s).mode = s.mode ∧ (advance s).depth = s.depth ∧
    (advance s).attack = s.attack ∧ (advance s).hold = s.hold ∧
    (advance s).release = s.release ∧ (advance s).curve = s.curve ∧
    (advance s).vel_sens = s.vel_sens ∧ (advance s).vel_depth = s.vel_depth ∧
    (advance s).active_notes = s.active_notes := by
  cases hp : s.phase <;> simp only [advance, hp] <;>
    first
      | (split_ifs <;> simp)
      | simp

theorem hold_samples_congr {s₁ s₂ : Ducker} (h : s₁.hold = s₂.hold) :
    hold_samples s₁ = hold_samples s₂ := by simp [hold_samples, h]

theorem release_samples_congr {s₁ s₂ : Ducker} (h : s₁.release = s₂.release) :
    release_samples s₁ = release_samples s₂ := by simp [release_samples, h]

theorem attack_samples_congr {s₁ s₂ : Ducker} (h : s₁.attack = s₂.attack) :
    attack_samples s₁ = attack_samples s₂ := by simp [attack_samples, h]

theorem clampf_le {x lo hi : ℚ} (h : lo ≤ hi) : clampf x lo hi ≤ hi := by
  unfold clampf; split_ifs <;> linarith

theorem le_clampf {x lo hi : ℚ} (h : lo ≤ hi) : lo ≤ clampf x lo hi := by
  unfold clampf; split_ifs <;> linarith

theorem cInt_nonneg {q : ℚ} (h : 0 ≤ q) : 0 ≤ cInt q := by
  unfold cInt
  rw [if_neg (by linarith)]
  exact Int.floor_nonneg.mpr h

theorem cInt_intCast (n : ℤ) : cInt (n : ℚ) = n := by
  unfold cInt
  split_ifs with h
  · have : (n : ℚ) < 0 := h
    rw [show (-(n : ℚ)) = ((-n : ℤ) : ℚ) by push_cast; ring, Int.floor_intCast]
    omega
  · rw [Int.floor_intCast]

theorem ms_to_samples_nonneg {ms : ℚ} (h : 0 ≤ ms) : 0 ≤ ms_to_samples ms := by
  unfold ms_to_samples
  exact cInt_nonneg (by positivity)

theorem shape_curve_nonneg (c : Curve) (t : ℚ) (b : Bool) :
    0 ≤ shape_curve c t b := by
  have h0 : (0 : ℚ) ≤ clampf t 0 1 := le_clampf (by norm_num)
  have h1 : clampf t 0 1 ≤ 1 := clampf_le (by norm_num)
  unfold shape_curve
  cases c <;> simp only <;> try split_ifs
  all_goals nlinarith [sq_nonneg (clampf t 0 1), sq_nonneg (1 - clampf t 0 1),
    mul_nonneg h0 h0, mul_nonneg (mul_nonneg h0 h0) h0]

theorem shape_curve_le_one (c : Curve) (t : ℚ) (b : Bool) :
    shape_curve c t b ≤ 1 := by
  have h0 : (0 : ℚ) ≤ clampf t 0 1 := le_clampf (by norm_num)
  have h1 : clampf t 0 1 ≤ 1 := clampf_le (by norm_num)
  unfold shape_curve
  cases c <;> simp only <;> try split_ifs
  all_goals nlinarith [sq_nonneg (clampf t 0 1), sq_nonneg (1 - clampf t 0 1),
    mul_nonneg h0 h0, mul_nonneg (mul_nonneg (sub_nonneg.mpr h1) (sub_nonneg.mpr h1)) (sub_nonneg.mpr h1)]

/-- Every advance leaves the envelope unchanged or sets it to `1 - vd`,
to `1`, or to a curve-shaped value between `1 - vd` and `1`. -/
theorem advance_env_cases (s : Ducker) :
    (advance s).envelope = s.envelope ∨
    (advance s).envelope = 1 - s.vel_depth ∨
    (advance s).envelope = 1 ∨
    (∃ u, 0 ≤ u ∧ u ≤ 1 ∧
      ((advance s).envelope = 1 - s.vel_depth * u ∨
       (advance s).envelope = (1 - s.vel_depth) + s.vel_depth * u)) := by
  cases hp : s.phase <;> simp only [advance, hp]
  · exact Or.inl trivial
  · split_ifs with h1 h2 h3 h2 h3
    · exact Or.inr (Or.inl rfl)
    · exact Or.inr (Or.inl rfl)
    · exact Or.inr (Or.inr (Or.inr
        ⟨shape_curve s.curve ((s.phase_pos : ℚ) / (s.phase_len : ℚ)) false,
          shape_curve_nonneg _ _ _, shape_curve_le_one _ _ _, Or.inl rfl⟩))
    · exact Or.inr (Or.inl rfl)
    · exact Or.inr (Or.inl rfl)
    · exact Or.inl rfl
  · split_ifs with h1
    · exact Or.inr (Or.inl rfl)
    · exact Or.inr (Or.inl rfl)
  · split_ifs with h1 h2 h2
    · exact Or.inr (Or.inr (Or.inl rfl))
    · exact Or.inr (Or.inr (Or.inr
        ⟨shape_curve s.curve ((s.phase_pos : ℚ) / (s.phase_len : ℚ)) true,
          shape_curve_nonneg _ _ _, shape_curve_le_one _ _ _, Or.inr rfl⟩))
    · exact Or.inr (Or.inr (Or.inl rfl))
    · exact Or.inl rfl

/-! ### Functional characterizations of the transitions -/

theorem advance_attack_stay (s : Ducker) (hp : s.phase = Phase.Attack)
    (h2 : ¬ s.phase_len ≤ s.phase_pos + 1) :
    advance s = { s with
      envelope := if 0 < s.phase_len then
          1 - s.vel_depth * shape_curve s.curve ((s.phase_pos : ℚ) / (s.phase_len : ℚ)) false
        else s.envelope,
      phase_pos := s.phase_pos + 1 } := by
  simp only [advance, hp]
  split_ifs <;> (try simp_all [hold_samples, release_samples, attack_samples, ms_to_samples]) <;> omega

theorem advance_attack_exit_hold (s : Ducker) (hp : s.phase = Phase.Attack)
    (h2 : s.phase_len ≤ s.phase_pos + 1)
    (h3 : ¬ (hold_samples s ≤ 0 ∧ s.mode = Mode.Trigger)) :
    advance s = { s with envelope := 1 - s.vel_depth, phase := Phase.Hold,
                         phase_pos := 0, phase_len := hold_samples s } := by
  simp only [advance, hp]
  split_ifs <;> (try simp_all [hold_samples, release_samples, attack_samples, ms_to_samples]) <;> omega

theorem advance_attack_exit_release (s : Ducker) (hp : s.phase = Phase.Attack)
    (h2 : s.phase_len ≤ s.phase_pos + 1)
    (h3 : hold_samples s ≤ 0 ∧ s.mode = Mode.Trigger) :
    advance s = { s with envelope := 1 - s.vel_depth, phase := Phase.Release,
                         phase_pos := 0, phase_len := release_samples s } := by
  simp only [advance, hp]
  split_ifs <;> (try simp_all [hold_samples, release_samples, attack_samples, ms_to_samples]) <;> omega

theorem advance_hold_stay (s : Ducker) (hp : s.phase = Phase.Hold)
    (h2 : ¬ (s.mode = Mode.Trigger ∧ s.phase_len ≤ s.phase_pos + 1)) :
    advance s = { s with envelope := 1 - s.vel_depth, phase_pos := s.phase_pos + 1 } := by
  simp only [advance, hp]
  split_ifs <;> (try simp_all [hold_samples, release_samples, attack_samples, ms_to_samples]) <;> omega

theorem advance_hold_exit (s : Ducker) (hp : s.phase = Phase.Hold)
    (h2 : s.mode = Mode.Trigger ∧ s.phase_len ≤ s.phase_pos + 1) :
    advance s = { s with envelope := 1 - s.vel_depth, phase := Phase.Release,
                         phase_pos := 0, phase_len := release_samples s } := by
  simp only [advance, hp]
  split_ifs <;> (try simp_all [hold_samples, release_samples, attack_samples, ms_to_samples]) <;> omega

theorem advance_release_stay (s : Ducker) (hp : s.phase = Phase.Release)
    (h2 : ¬ s.phase_len ≤ s.phase_pos + 1) :
    advance s = { s with
      envelope := if 0 < s.phase_len then
          (1 - s.vel_depth) + s.vel_depth * shape_curve s.curve ((s.phase_pos : ℚ) / (s.phase_len : ℚ)) true
        else s.envelope,
      phase_pos := s.phase_pos + 1 } := by
  simp only [advance, hp]
  split_ifs <;> (try simp_all [hold_samples, release_samples, attack_samples, ms_to_samples]) <;> omega

theorem advance_release_exit (s : Ducker) (hp : s.phase = Phase.Release)
    (h2 : s.phase_len ≤ s.phase_pos + 1) :
    advance s = { s with
      envelope := 1, phase := Phase.Idle, phase_pos := s.phase_pos + 1 } := by
  simp only [advance, hp]
  split_ifs <;> (try simp_all [hold_samples, release_samples, attack_samples, ms_to_samples]) <;> omega

theorem start_attack_pos (s : Ducker) (h : 0 < attack_samples s) :
    start_attack s = { s with phase := Phase.Attack, phase_pos := 0,
                              phase_len := attack_samples s } := by
  simp only [start_attack]
  split_ifs <;> (try simp_all [hold_samples, release_samples, attack_samples, ms_to_samples]) <;> omega

theorem start_attack_hold (s : Ducker) (h : attack_samples s ≤ 0)
    (h3 : ¬ (hold_samples s ≤ 0 ∧ s.mode = Mode.Trigger)) :
    start_attack s = { s with envelope := 1 - s.vel_depth, phase := Phase.Hold,
                              phase_pos := 0, phase_len := hold_samples s } := by
  simp only [start_attack]
  split_ifs <;> (try simp_all [hold_samples, release_samples, attack_samples, ms_to_samples]) <;> omega

theorem start_attack_release (s : Ducker) (h : attack_samples s ≤ 0)
    (h3 : hold_samples s ≤ 0 ∧ s.mode = Mode.Trigger) :
    start_attack s = { s with envelope := 1 - s.vel_depth, phase := Phase.Release,
                              phase_pos := 0, phase_len := release_samples s } := by
  simp only [start_attack]
  split_ifs <;> (try simp_all [hold_samples, release_samples, attack_samples, ms_to_samples]) <;> omega

theorem start_release_pos (s : Ducker) (h : 0 < release_samples s) :
    start_release s = { s with phase := Phase.Release, phase_pos := 0,
                               phase_len := release_samples s } := by
  simp only [start_release]
  split_ifs <;> (try simp_all [hold_samples, release_samples, attack_samples, ms_to_samples]) <;> omega

theorem start_release_zero (s : Ducker) (h : release_samples s ≤ 0) :
    start_release s = { s with phase := Phase.Idle, phase_pos := 0,
                               phase_len := release_samples s, envelope := 1 } := by
  simp only [start_release]
  split_ifs <;> (try simp_all [hold_samples, release_samples, attack_samples, ms_to_samples]) <;> omega

theorem on_midi_short (s : Ducker) (m : List ℕ) (h : m.length < 3) :
    ducker_on_midi s m = s := by
  simp only [ducker_on_midi]
  rw [if_pos h]

theorem on_midi_wrong_channel (s : Ducker) (m : List ℕ) (hlen : ¬ m.length < 3)
    (hch : 0 < s.channel ∧ ((m.getD 0 0 &&& 0x0F : ℕ) : ℤ) + 1 ≠ s.channel) :
    ducker_on_midi s m = s := by
  simp only [ducker_on_midi]
  rw [if_neg hlen, if_pos hch]

theorem on_midi_wrong_note (s : Ducker) (m : List ℕ) (hlen : ¬ m.length < 3)
    (hch : ¬ (0 < s.channel ∧ ((m.getD 0 0 &&& 0x0F : ℕ) : ℤ) + 1 ≠ s.channel))
    (hnote : ((m.getD 1 0 : ℕ) : ℤ) ≠ s.trigger_note) :
    ducker_on_midi s m = s := by
  simp only [ducker_on_midi]
  rw [if_neg hlen, if_neg hch, if_pos hnote]

theorem on_midi_note_on (s : Ducker) (m : List ℕ) (hlen : ¬ m.length < 3)
    (hch : ¬ (0 < s.channel ∧ ((m.getD 0 0 &&& 0x0F : ℕ) : ℤ) + 1 ≠ s.channel))
    (hnote : ((m.getD 1 0 : ℕ) : ℤ) = s.trigger_note)
    (hon : m.getD 0 0 &&& 0xF0 = 0x90 ∧ 0 < m.getD 2 0) :
    ducker_on_midi s m = start_attack { s with
      active_notes := s.active_notes + 1,
      vel_depth := s.depth *
        (if 0 < s.vel_sens then
          1 - s.vel_sens + s.vel_sens * ((m.getD 2 0 : ℚ) / 127)
        else 1) } := by
  simp only [ducker_on_midi]
  split_ifs <;> (try simp_all) <;> (try rfl)

theorem on_midi_note_off (s : Ducker) (m : List ℕ) (hlen : ¬ m.length < 3)
    (hch : ¬ (0 < s.channel ∧ ((m.getD 0 0 &&& 0x0F : ℕ) : ℤ) + 1 ≠ s.channel))
    (hnote : ((m.getD 1 0 : ℕ) : ℤ) = s.trigger_note)
    (hoff : m.getD 0 0 &&& 0xF0 = 0x80 ∨
      (m.getD 0 0 &&& 0xF0 = 0x90 ∧ m.getD 2 0 = 0)) :
    ducker_on_midi s m = noteOffAction s := by
  simp only [ducker_on_midi, noteOffAction, noteOffDec]
  split_ifs <;> (try simp_all) <;> (try rfl) <;> omega

/-- Envelope preserved within its duck band by one advance. -/
theorem advance_env_mem (s : Ducker) (h0 : 0 ≤ s.vel_depth) (h1 : s.vel_depth ≤ 1)
    (h2 : 1 - s.vel_depth ≤ s.envelope) (h3 : s.envelope ≤ 1) :
    1 - s.vel_depth ≤ (advance s).envelope ∧ (advance s).envelope ≤ 1 := by
  rcases advance_env_cases s with h | h | h | ⟨u, hu0, hu1, h | h⟩ <;>
    rw [h] <;> constructor <;> nlinarith

/-- Envelope stays in the unit interval under one advance. -/
theorem advance_env_unit (s : Ducker) (h0 : 0 ≤ s.vel_depth) (h1 : s.vel_depth ≤ 1)
    (h2 : 0 ≤ s.envelope) (h3 : s.envelope ≤ 1) :
    0 ≤ (advance s).envelope ∧ (advance s).envelope ≤ 1 := by
  rcases advance_env_cases s with h | h | h | ⟨u, hu0, hu1, h | h⟩ <;>
    rw [h] <;> constructor <;> nlinarith

theorem start_attack_keeps (s : Ducker) :
    (start_attack s).channel = s.channel ∧ (start_attack s).trigger_note = s.trigger_note ∧
    (start_attack s).mode = s.mode ∧ (start_attack s).depth = s.depth ∧
    (start_attack s).attack = s.attack ∧ (start_attack s).hold = s.hold ∧
    (start_attack s).release = s.release ∧ (start_attack s).curve = s.curve ∧
    (start_attack s).vel_sens = s.vel_sens ∧ (start_attack s).vel_depth = s.vel_depth ∧
    (start_attack s).active_notes = s.active_notes := by
  simp only [start_attack]
  split_ifs <;> simp

theorem start_release_keeps (s : Ducker) :
    (start_release s).channel = s.channel ∧ (start_release s).trigger_note = s.trigger_note ∧
    (start_release s).mode = s.mode ∧ (start_release s).depth = s.depth ∧
    (start_release s).attack = s.attack ∧ (start_release s).hold = s.hold ∧
    (start_release s).release = s.release ∧ (start_release s).curve = s.curve ∧
    (start_release s).vel_sens = s.vel_sens ∧ (start_release s).vel_depth = s.vel_depth ∧
    (start_release s).active_notes = s.active_notes := by
  simp only [start_release]
  split_ifs <;> simp

theorem start_attack_env_cases (s : Ducker) :
    (start_attack s).envelope = s.envelope ∨
    (start_attack s).envelope = 1 - s.vel_depth := by
  simp only [start_attack]
  split_ifs <;> simp

theorem start_release_env_cases (s : Ducker) :
    (start_release s).envelope = s.envelope ∨ (start_release s).envelope = 1 := by
  simp only [start_release]
  split_ifs <;> simp

theorem envInv_start_attack (s : Ducker) : EnvInv (start_attack s) := by
  by_cases h1 : 0 < attack_samples s
  · rw [start_attack_pos s h1]
    unfold EnvInv
    refine ⟨fun hph => ?_, fun hph => ?_, fun hph => ?_⟩ <;>
      (try simp_all [hold_samples, release_samples, attack_samples, ms_to_samples])
    all_goals try omega
    all_goals (intro hmt; simp_all <;> omega)
  · by_cases h3 : hold_samples s ≤ 0 ∧ s.mode = Mode.Trigger
    · rw [start_attack_release s (by omega) h3]
      unfold EnvInv
      refine ⟨fun hph => ?_, fun hph => ?_, fun hph => ?_⟩ <;>
        (try simp_all [hold_samples, release_samples, attack_samples, ms_to_samples])
      all_goals try omega
      all_goals (intro hmt; simp_all <;> omega)
    · rw [start_attack_hold s (by omega) h3]
      unfold EnvInv
      refine ⟨fun hph => ?_, fun hph => ?_, fun hph => ?_⟩ <;>
        (try simp_all [hold_samples, release_samples, attack_samples, ms_to_samples])
      all_goals try omega
      all_goals (intro hmt; simp_all <;> omega)

theorem envInv_start_release (s : Ducker) : EnvInv (start_release s) := by
  by_cases h1 : 0 < release_samples s
  · rw [start_release_pos s h1]
    unfold EnvInv
    refine ⟨fun hph => ?_, fun hph => ?_, fun hph => ?_⟩ <;>
      (try simp_all [hold_samples, release_samples, attack_samples, ms_to_samples])
    all_goals try omega
    all_goals (intro hmt; simp_all <;> omega)
  · rw [start_release_zero s (by omega)]
    unfold EnvInv
    refine ⟨fun hph => ?_, fun hph => ?_, fun hph => ?_⟩ <;>
      (try simp_all [hold_samples, release_samples, attack_samples, ms_to_samples])
    all_goals try omega
    all_goals (intro hmt; simp_all <;> omega)

theorem envInv_advance (s : Ducker) (h : EnvInv s) : EnvInv (advance s) := by
  obtain ⟨hA, hH, hR⟩ := h
  cases hp : s.phase
  case Idle => rw [idle_fixed s hp]; exact ⟨hA, hH, hR⟩
  case Attack =>
    obtain ⟨hpos, hlt⟩ := hA hp
    by_cases h2 : s.phase_len ≤ s.phase_pos + 1
    · by_cases h3 : hold_samples s ≤ 0 ∧ s.mode = Mode.Trigger
      · rw [advance_attack_exit_release s hp h2 h3]
        unfold EnvInv
        refine ⟨fun hph => ?_, fun hph => ?_, fun hph => ?_⟩ <;>
          (try simp_all [hold_samples, release_samples, attack_samples, ms_to_samples])
        all_goals try omega
        all_goals (intro hmt; simp_all <;> omega)
      · rw [advance_attack_exit_hold s hp h2 h3]
        unfold EnvInv
        refine ⟨fun hph => ?_, fun hph => ?_, fun hph => ?_⟩ <;>
          (try simp_all [hold_samples, release_samples, attack_samples, ms_to_samples])
        all_goals try omega
        all_goals (intro hmt; simp_all <;> omega)
    · rw [advance_attack_stay s hp h2]
      unfold EnvInv
      refine ⟨fun hph => ?_, fun hph => ?_, fun hph => ?_⟩ <;>
        (try simp_all [hold_samples, release_samples, attack_samples, ms_to_samples])
      all_goals try omega
      all_goals (intro hmt; simp_all <;> omega)
  case Hold =>
    obtain ⟨hpos, himp⟩ := hH hp
    by_cases h2 : s.mode = Mode.Trigger ∧ s.phase_len ≤ s.phase_pos + 1
    · rw [advance_hold_exit s hp h2]
      unfold EnvInv
      refine ⟨fun hph => ?_, fun hph => ?_, fun hph => ?_⟩ <;>
        (try simp_all [hold_samples, release_samples, attack_samples, ms_to_samples])
      all_goals try omega
      all_goals (intro hmt; simp_all <;> omega)
    · rw [advance_hold_stay s hp h2]
      unfold EnvInv
      refine ⟨fun hph => ?_, fun hph => ?_, fun hph => ?_⟩ <;>
        (try simp_all [hold_samples, release_samples, attack_samples, ms_to_samples])
      all_goals try omega
      all_goals (intro hmt; simp_all <;> omega)
  case Release =>
    obtain ⟨hpos, hdisj⟩ := hR hp
    by_cases h2 : s.phase_len ≤ s.phase_pos + 1
    · rw [advance_release_exit s hp h2]
      unfold EnvInv
      refine ⟨fun hph => ?_, fun hph => ?_, fun hph => ?_⟩ <;>
        (try simp_all [hold_samples, release_samples, attack_samples, ms_to_samples])
      all_goals try omega
      all_goals (intro hmt; simp_all <;> omega)
    · rw [advance_release_stay s hp h2]
      unfold EnvInv
      refine ⟨fun hph => ?_, fun hph => ?_, fun hph => ?_⟩ <;>
        (try simp_all [hold_samples, release_samples, attack_samples, ms_to_samples])
      all_goals try omega
      all_goals (intro hmt; simp_all <;> omega)

theorem on_midi_other (s : Ducker) (m : List ℕ) (hlen : ¬ m.length < 3)
    (hch : ¬ (0 < s.channel ∧ ((m.getD 0 0 &&& 0x0F : ℕ) : ℤ) + 1 ≠ s.channel))
    (hnote : ((m.getD 1 0 : ℕ) : ℤ) = s.trigger_note)
    (hon : ¬ (m.getD 0 0 &&& 0xF0 = 0x90 ∧ 0 < m.getD 2 0))
    (hoff : ¬ (m.getD 0 0 &&& 0xF0 = 0x80 ∨
      (m.getD 0 0 &&& 0xF0 = 0x90 ∧ m.getD 2 0 = 0))) :
    ducker_on_midi s m = s := by
  simp only [ducker_on_midi]
  rw [if_neg hlen, if_neg hch, if_neg (not_not.mpr hnote), if_neg hon, if_neg hoff]

/-- `EnvInv` ignores `active_notes`. -/
theorem envInv_set_active (s : Ducker) (n : ℤ) :
    EnvInv { s with active_notes := n } ↔ EnvInv s := Iff.rfl

theorem envInv_midi (s : Ducker) (m : List ℕ) (h : EnvInv s) :
    EnvInv (ducker_on_midi s m) := by
  by_cases hlen : m.length < 3
  · rw [on_midi_short s m hlen]; exact h
  by_cases hch : 0 < s.channel ∧ ((m.getD 0 0 &&& 0x0F : ℕ) : ℤ) + 1 ≠ s.channel
  · rw [on_midi_wrong_channel s m hlen hch]; exact h
  by_cases hnote : ((m.getD 1 0 : ℕ) : ℤ) = s.trigger_note
  case neg => rw [on_midi_wrong_note s m hlen hch hnote]; exact h
  by_cases hon : m.getD 0 0 &&& 0xF0 = 0x90 ∧ 0 < m.getD 2 0
  · rw [on_midi_note_on s m hlen hch hnote hon]
    exact envInv_start_attack _
  by_cases hoff : m.getD 0 0 &&& 0xF0 = 0x80 ∨
      (m.getD 0 0 &&& 0xF0 = 0x90 ∧ m.getD 2 0 = 0)
  · rw [on_midi_note_off s m hlen hch hnote hoff]
    unfold noteOffAction
    split_ifs with hg
    · exact envInv_start_release _
    · unfold noteOffDec
      split_ifs with hd
      · exact (envInv_set_active s _).mpr h
      · exact h
  · rw [on_midi_other s m hlen hch hnote hon hoff]; exact h

theorem gateInv_start_attack (s : Ducker) : GateIdleInv (start_attack s) := by
  intro hmode hph
  by_cases h1 : 0 < attack_samples s
  · rw [start_attack_pos s h1] at hph hmode ⊢
    simp_all
  · by_cases h3 : hold_samples s ≤ 0 ∧ s.mode = Mode.Trigger
    · rw [start_attack_release s (by omega) h3] at hph hmode ⊢
      simp_all
    · rw [start_attack_hold s (by omega) h3] at hph hmode ⊢
      simp_all

theorem gateInv_start_release (s : Ducker) (ha : s.active_notes = 0) :
    GateIdleInv (start_release s) := by
  intro hmode hph
  by_cases h1 : 0 < release_samples s
  · rw [start_release_pos s h1]; exact ha
  · rw [start_release_zero s (by omega)]; exact ha

theorem gateInv_advance (s : Ducker) (hEnv : EnvInv s) (h : GateIdleInv s) :
    GateIdleInv (advance s) := by
  intro hmode hph
  have hkeep := advance_keeps s
  cases hp : s.phase
  case Idle =>
    rw [idle_fixed s hp] at hph hmode ⊢
    exact h hmode (Or.inr hp)
  case Attack =>
    by_cases h2 : s.phase_len ≤ s.phase_pos + 1
    · by_cases h3 : hold_samples s ≤ 0 ∧ s.mode = Mode.Trigger
      · rw [advance_attack_exit_release s hp h2 h3] at hph hmode ⊢
        simp_all
      · rw [advance_attack_exit_hold s hp h2 h3] at hph hmode ⊢
        simp_all
    · rw [advance_attack_stay s hp h2] at hph hmode ⊢
      simp_all
  case Hold =>
    by_cases h2 : s.mode = Mode.Trigger ∧ s.phase_len ≤ s.phase_pos + 1
    · rw [advance_hold_exit s hp h2] at hph hmode ⊢
      simp_all
    · rw [advance_hold_stay s hp h2] at hph hmode ⊢
      simp_all
  case Release =>
    by_cases h2 : s.phase_len ≤ s.phase_pos + 1
    · rw [advance_release_exit s hp h2] at hph hmode ⊢
      exact h hmode (Or.inl hp)
    · rw [advance_release_stay s hp h2] at hph hmode ⊢
      exact h hmode (Or.inl hp)

theorem gateInv_midi (s : Ducker) (m : List ℕ) (h : GateIdleInv s) :
    GateIdleInv (ducker_on_midi s m) := by
  by_cases hlen : m.length < 3
  · rw [on_midi_short s m hlen]; exact h
  by_cases hch : 0 < s.channel ∧ ((m.getD 0 0 &&& 0x0F : ℕ) : ℤ) + 1 ≠ s.channel
  · rw [on_midi_wrong_channel s m hlen hch]; exact h
  by_cases hnote : ((m.getD 1 0 : ℕ) : ℤ) = s.trigger_note
  case neg => rw [on_midi_wrong_note s m hlen hch hnote]; exact h
  by_cases hon : m.getD 0 0 &&& 0xF0 = 0x90 ∧ 0 < m.getD 2 0
  · rw [on_midi_note_on s m hlen hch hnote hon]
    exact gateInv_start_attack _
  by_cases hoff : m.getD 0 0 &&& 0xF0 = 0x80 ∨
      (m.getD 0 0 &&& 0xF0 = 0x90 ∧ m.getD 2 0 = 0)
  · rw [on_midi_note_off s m hlen hch hnote hoff]
    unfold noteOffAction
    split_ifs with hg
    · exact gateInv_start_release _ hg.2.1
    · -- release not started: if the phase is Release/Idle after the
      -- decrement step, the count was already 0 before it
      intro hmode hph
      unfold noteOffDec at hmode hph ⊢
      split_ifs at hmode hph ⊢ with hd
      · have h0 := h hmode hph
        show s.active_notes - 1 = 0
        omega
      · exact h hmode hph
  · rw [on_midi_other s m hlen hch hnote hon hoff]; exact h

theorem configOf_advance (s : Ducker) : configOf (advance s) = configOf s := by
  obtain ⟨h1, h2, h3, h4, h5, h6, h7, h8, h9, _, _⟩ := advance_keeps s
  simp [configOf, h1, h2, h3, h4, h5, h6, h7, h8, h9]

theorem configOf_start_attack (s : Ducker) : configOf (start_attack s) = configOf s := by
  obtain ⟨h1, h2, h3, h4, h5, h6, h7, h8, h9, _, _⟩ := start_attack_keeps s
  simp [configOf, h1, h2, h3, h4, h5, h6, h7, h8, h9]

theorem configOf_start_release (s : Ducker) : configOf (start_release s) = configOf s := by
  obtain ⟨h1, h2, h3, h4, h5, h6, h7, h8, h9, _, _⟩ := start_release_keeps s
  simp [configOf, h1, h2, h3, h4, h5, h6, h7, h8, h9]

theorem configOf_midi (s : Ducker) (m : List ℕ) :
    configOf (ducker_on_midi s m) = configOf s := by
  by_cases hlen : m.length < 3
  · rw [on_midi_short s m hlen]
  by_cases hch : 0 < s.channel ∧ ((m.getD 0 0 &&& 0x0F : ℕ) : ℤ) + 1 ≠ s.channel
  · rw [on_midi_wrong_channel s m hlen hch]
  by_cases hnote : ((m.getD 1 0 : ℕ) : ℤ) = s.trigger_note
  case neg => rw [on_midi_wrong_note s m hlen hch hnote]
  by_cases hon : m.getD 0 0 &&& 0xF0 = 0x90 ∧ 0 < m.getD 2 0
  · rw [on_midi_note_on s m hlen hch hnote hon, configOf_start_attack]
    rfl
  by_cases hoff : m.getD 0 0 &&& 0xF0 = 0x80 ∨
      (m.getD 0 0 &&& 0xF0 = 0x90 ∧ m.getD 2 0 = 0)
  · rw [on_midi_note_off s m hlen hch hnote hoff]
    unfold noteOffAction noteOffDec
    split_ifs <;> (try rw [configOf_start_release]) <;> rfl
  · rw [on_midi_other s m hlen hch hnote hon hoff]

/-- Active-note count of the midi handler result: never decreased below 0,
incremented on note-on. -/
theorem active_nonneg_midi (s : Ducker) (m : List ℕ) (h : 0 ≤ s.active_notes) :
    0 ≤ (ducker_on_midi s m).active_notes := by
  by_cases hlen : m.length < 3
  · rw [on_midi_short s m hlen]; exact h
  by_cases hch : 0 < s.channel ∧ ((m.getD 0 0 &&& 0x0F : ℕ) : ℤ) + 1 ≠ s.channel
  · rw [on_midi_wrong_channel s m hlen hch]; exact h
  by_cases hnote : ((m.getD 1 0 : ℕ) : ℤ) = s.trigger_note
  case neg => rw [on_midi_wrong_note s m hlen hch hnote]; exact h
  by_cases hon : m.getD 0 0 &&& 0xF0 = 0x90 ∧ 0 < m.getD 2 0
  · rw [on_midi_note_on s m hlen hch hnote hon]
    have := (start_attack_keeps { s with
      active_notes := s.active_notes + 1,
      vel_depth := s.depth *
        (if 0 < s.vel_sens then
          1 - s.vel_sens + s.vel_sens * ((m.getD 2 0 : ℚ) / 127)
        else 1) }).2.2.2.2.2.2.2.2.2.2
    rw [this]
    show 0 ≤ s.active_notes + 1
    omega
  by_cases hoff : m.getD 0 0 &&& 0xF0 = 0x80 ∨
      (m.getD 0 0 &&& 0xF0 = 0x90 ∧ m.getD 2 0 = 0)
  · rw [on_midi_note_off s m hlen hch hnote hoff]
    unfold noteOffAction
    split_ifs with hg
    · rw [(start_release_keeps _).2.2.2.2.2.2.2.2.2.2]
      unfold noteOffDec
      split_ifs with hd
      · show 0 ≤ s.active_notes - 1
        omega
      · exact h
    · unfold noteOffDec
      split_ifs with hd
      · show 0 ≤ s.active_notes - 1
        omega
      · exact h
  · rw [on_midi_other s m hlen hch hnote hon hoff]; exact h

theorem vel_scale_bounds (vs : ℚ) (v : ℕ) (h0 : 0 ≤ vs) (h1 : vs ≤ 1)
    (hv : v ≤ 127) :
    0 ≤ (if 0 < vs then 1 - vs + vs * ((v : ℚ) / 127) else 1) ∧
    (if 0 < vs then 1 - vs + vs * ((v : ℚ) / 127) else 1) ≤ 1 := by
  split_ifs with h
  · have hv' : (v : ℚ) ≤ 127 := by exact_mod_cast hv
    have hd0 : (0 : ℚ) ≤ (v : ℚ) / 127 := by positivity
    have hd1 : (v : ℚ) / 127 ≤ 1 := by
      rw [div_le_one (by norm_num)]
      exact hv'
    constructor <;> nlinarith
  · norm_num

/-- After any MIDI event, `vel_depth` and `envelope` stay in [0,1],
provided the parameters are in range and the velocity byte is 7-bit. -/
theorem midi_bounds (s : Ducker) (m : List ℕ)
    (hvs0 : 0 ≤ s.vel_sens) (hvs1 : s.vel_sens ≤ 1)
    (hd0 : 0 ≤ s.depth) (hd1 : s.depth ≤ 1)
    (hvel : m.length < 3 ∨ m.getD 2 0 ≤ 127)
    (hvd0 : 0 ≤ s.vel_depth) (hvd1 : s.vel_depth ≤ 1)
    (he0 : 0 ≤ s.envelope) (he1 : s.envelope ≤ 1) :
    0 ≤ (ducker_on_midi s m).vel_depth ∧ (ducker_on_midi s m).vel_depth ≤ 1 ∧
    0 ≤ (ducker_on_midi s m).envelope ∧ (ducker_on_midi s m).envelope ≤ 1 := by
  by_cases hlen : m.length < 3
  · rw [on_midi_short s m hlen]; exact ⟨hvd0, hvd1, he0, he1⟩
  have hvel' : m.getD 2 0 ≤ 127 := hvel.resolve_left hlen
  by_cases hch : 0 < s.channel ∧ ((m.getD 0 0 &&& 0x0F : ℕ) : ℤ) + 1 ≠ s.channel
  · rw [on_midi_wrong_channel s m hlen hch]; exact ⟨hvd0, hvd1, he0, he1⟩
  by_cases hnote : ((m.getD 1 0 : ℕ) : ℤ) = s.trigger_note
  case neg => rw [on_midi_wrong_note s m hlen hch hnote]; exact ⟨hvd0, hvd1, he0, he1⟩
  by_cases hon : m.getD 0 0 &&& 0xF0 = 0x90 ∧ 0 < m.getD 2 0
  · rw [on_midi_note_on s m hlen hch hnote hon]
    obtain ⟨hs0, hs1⟩ := vel_scale_bounds s.vel_sens (m.getD 2 0) hvs0 hvs1 hvel'
    set s2 : Ducker := { s with
      active_notes := s.active_notes + 1,
      vel_depth := s.depth *
        (if 0 < s.vel_sens then
          1 - s.vel_sens + s.vel_sens * ((m.getD 2 0 : ℚ) / 127)
        else 1) } with hs2
    have hvd : (start_attack s2).vel_depth = s2.vel_depth :=
      (start_attack_keeps s2).2.2.2.2.2.2.2.2.2.1
    have hvdb0 : (0 : ℚ) ≤ s2.vel_depth := by
      show (0 : ℚ) ≤ s.depth * _
      exact mul_nonneg hd0 hs0
    have hvdb1 : s2.vel_depth ≤ 1 := by
      show s.depth * _ ≤ 1
      nlinarith
    refine ⟨by rw [hvd]; exact hvdb0, by rw [hvd]; exact hvdb1, ?_, ?_⟩ <;>
      rcases start_attack_env_cases s2 with hce | hce <;> rw [hce] <;>
      first
        | exact he0
        | exact he1
        | (show (0 : ℚ) ≤ 1 - s2.vel_depth; linarith)
        | (show (1 : ℚ) - s2.vel_depth ≤ 1; linarith)
  by_cases hoff : m.getD 0 0 &&& 0xF0 = 0x80 ∨
      (m.getD 0 0 &&& 0xF0 = 0x90 ∧ m.getD 2 0 = 0)
  · rw [on_midi_note_off s m hlen hch hnote hoff]
    unfold noteOffAction
    have hdec : (noteOffDec s).vel_depth = s.vel_depth ∧
        (noteOffDec s).envelope = s.envelope := by
      unfold noteOffDec
      split_ifs <;> exact ⟨rfl, rfl⟩
    split_ifs with hg
    · have hkeep := (start_release_keeps (noteOffDec s)).2.2.2.2.2.2.2.2.2.1
      rw [hkeep, hdec.1]
      refine ⟨hvd0, hvd1, ?_, ?_⟩ <;>
        rcases start_release_env_cases (noteOffDec s) with hce | hce <;>
        rw [hce] <;> first | (rw [hdec.2]; exact he0) | (rw [hdec.2]; exact he1) | norm_num
    · rw [hdec.1, hdec.2]; exact ⟨hvd0, hvd1, he0, he1⟩
  · rw [on_midi_other s m hlen hch hnote hon hoff]; exact ⟨hvd0, hvd1, he0, he1⟩

theorem duckerInv_advance (c : Config) (s : Ducker) (h : DuckerInv c s) :
    DuckerInv c (advance s) := by
  obtain ⟨hcfg, hvd0, hvd1, he0, he1, hact, hEnv, hGate⟩ := h
  have hkvd := (advance_keeps s).2.2.2.2.2.2.2.2.2.1
  have hkact := (advance_keeps s).2.2.2.2.2.2.2.2.2.2
  obtain ⟨hu0, hu1⟩ := advance_env_unit s hvd0 hvd1 he0 he1
  exact ⟨by rw [configOf_advance]; exact hcfg,
    by rw [hkvd]; exact hvd0, by rw [hkvd]; exact hvd1, hu0, hu1,
    by rw [hkact]; exact hact,
    envInv_advance s hEnv, gateInv_advance s hEnv hGate⟩

theorem duckerInv_midi (c : Config) (s : Ducker) (m : List ℕ)
    (hc : ValidConfig c) (hm : ValidEv (Ev.midi m)) (h : DuckerInv c s) :
    DuckerInv c (ducker_on_midi s m) := by
  obtain ⟨hcfg, hvd0, hvd1, he0, he1, hact, hEnv, hGate⟩ := h
  have hvs : s.vel_sens = c.vel_sens := congrArg Config.vel_sens hcfg
  have hdep : s.depth = c.depth := congrArg Config.depth hcfg
  have hvel : m.length < 3 ∨ m.getD 2 0 ≤ 127 := by
    rcases hm with hm | hm
    · exact Or.inl hm
    · exact Or.inr hm.2
  obtain ⟨hb1, hb2, hb3, hb4⟩ := midi_bounds s m
    (by rw [hvs]; exact hc.2.2.2.2.2.2.2.2.2.2.2.2.1)
    (by rw [hvs]; exact hc.2.2.2.2.2.2.2.2.2.2.2.2.2)
    (by rw [hdep]; exact hc.2.2.2.2.1)
    (by rw [hdep]; exact hc.2.2.2.2.2.1)
    hvel hvd0 hvd1 he0 he1
  exact ⟨by rw [configOf_midi]; exact hcfg, hb1, hb2, hb3, hb4,
    active_nonneg_midi s m hact, envInv_midi s m hEnv, gateInv_midi s m hGate⟩

theorem duckerInv_init (c : Config) : DuckerInv c (withConfig v2_create_instance c) := by
  refine ⟨rfl, by show (0:ℚ) ≤ 0; norm_num, by show (0:ℚ) ≤ 1; norm_num,
    by show (0:ℚ) ≤ 1; norm_num, by show (1:ℚ) ≤ 1; norm_num,
    by show (0:ℤ) ≤ 0; norm_num,
    ⟨fun hph => ?_, fun hph => ?_, fun hph => ?_⟩, fun hmode hph => ?_⟩
  · exact absurd hph (by simp [withConfig, v2_create_instance])
  · exact absurd hph (by simp [withConfig, v2_create_instance])
  · exact absurd hph (by simp [withConfig, v2_create_instance])
  · rfl

theorem runEvents_preserves (c : Config) (hc : ValidConfig c) :
    ∀ evs : List Ev, ∀ s : Ducker, (∀ e ∈ evs, ValidEv e) →
      DuckerInv c s → DuckerInv c (runEvents s evs) := by
  intro evs
  induction evs with
  | nil => intro s _ h; exact h
  | cons e rest ih =>
      intro s hval h
      show DuckerInv c (runEvents (applyEv s e) rest)
      refine ih (applyEv s e) (fun x hx => hval x (List.mem_cons_of_mem e hx)) ?_
      cases e with
      | midi m => exact duckerInv_midi c s m hc (hval (Ev.midi m) (List.mem_cons_self _ _)) h
      | tick => exact duckerInv_advance c s h

/-- Every state reachable from a validly configured fresh instance
satisfies the full invariant. -/
theorem reachable_inv (c : Config) (s : Ducker) (hc : ValidConfig c)
    (hr : Reachable c s) : DuckerInv c s := by
  obtain ⟨evs, hval, hrun⟩ := hr
  rw [← hrun]
  exact runEvents_preserves c hc evs _ hval (duckerInv_init c)

theorem stepsFrom_pos (s : Ducker) (h : s.phase ≠ Phase.Idle) : 1 ≤ stepsFrom s := by
  cases hp : s.phase <;> simp_all [stepsFrom, phaseSteps] <;> omega

theorem advanceN_vd (s : Ducker) (n : ℕ) : (advanceN s n).vel_depth = s.vel_depth := by
  induction n with
  | zero => rfl
  | succ n ih => rw [advanceN_succ_right, (advance_keeps _).2.2.2.2.2.2.2.2.2.1, ih]

/-- Each advance either reaches Idle (with gain snapped to 1) in exactly
one remaining step, or decrements the remaining-step measure by one. -/
theorem steps_dec (s : Ducker) (hm : s.mode = Mode.Trigger) (hph : s.phase ≠ Phase.Idle) :
    ((advance s).phase = Phase.Idle ∧ (advance s).envelope = 1 ∧ stepsFrom s = 1) ∨
    ((advance s).phase ≠ Phase.Idle ∧ stepsFrom (advance s) + 1 = stepsFrom s) := by
  cases hp : s.phase
  case Idle => exact absurd hp hph
  case Attack =>
    by_cases h2 : s.phase_len ≤ s.phase_pos + 1
    · by_cases h3 : hold_samples s ≤ 0 ∧ s.mode = Mode.Trigger
      · have h3a := h3.1
        rw [advance_attack_exit_release s hp h2 h3]
        refine Or.inr ⟨by simp, ?_⟩
        simp only [stepsFrom, hp, phaseSteps]
        simp only [hold_samples, release_samples, attack_samples, ms_to_samples] at *
        first | (split_ifs <;> omega) | omega
      · have hh : ¬ hold_samples s ≤ 0 := fun hle => h3 ⟨hle, hm⟩
        rw [advance_attack_exit_hold s hp h2 h3]
        refine Or.inr ⟨by simp, ?_⟩
        simp only [stepsFrom, hp, phaseSteps]
        simp only [hold_samples, release_samples, attack_samples, ms_to_samples] at *
        first | (split_ifs <;> omega) | omega
    · rw [advance_attack_stay s hp h2]
      refine Or.inr ⟨by simp [hp], ?_⟩
      simp only [stepsFrom, hp, phaseSteps]
      simp only [hold_samples, release_samples, attack_samples, ms_to_samples] at *
      first | (split_ifs <;> omega) | omega
  case Hold =>
    by_cases h2 : s.mode = Mode.Trigger ∧ s.phase_len ≤ s.phase_pos + 1
    · obtain ⟨hmt, hlen⟩ := h2
      rw [advance_hold_exit s hp ⟨hmt, hlen⟩]
      refine Or.inr ⟨by simp, ?_⟩
      simp only [stepsFrom, hp, phaseSteps]
      simp only [hold_samples, release_samples, attack_samples, ms_to_samples] at *
      first | (split_ifs <;> omega) | omega
    · have hlen : ¬ s.phase_len ≤ s.phase_pos + 1 := fun hle => h2 ⟨hm, hle⟩
      rw [advance_hold_stay s hp h2]
      refine Or.inr ⟨by simp [hp], ?_⟩
      simp only [stepsFrom, hp, phaseSteps]
      simp only [hold_samples, release_samples, attack_samples, ms_to_samples] at *
      first | (split_ifs <;> omega) | omega
  case Release =>
    by_cases h2 : s.phase_len ≤ s.phase_pos + 1
    · rw [advance_release_exit s hp h2]
      refine Or.inl ⟨rfl, rfl, ?_⟩
      simp only [stepsFrom, hp, phaseSteps]
      omega
    · rw [advance_release_stay s hp h2]
      refine Or.inr ⟨by simp [hp], ?_⟩
      simp only [stepsFrom, hp, phaseSteps]
      omega

/-- In Trigger mode the state machine reaches Idle, with the envelope
snapped to exactly 1, within `stepsFrom s` samples; Idle then absorbs. -/
theorem trigger_to_idle : ∀ n : ℕ, ∀ s : Ducker, s.mode = Mode.Trigger →
    s.phase ≠ Phase.Idle → stepsFrom s ≤ n →
    (advanceN s n).phase = Phase.Idle ∧ (advanceN s n).envelope = 1 := by
  intro n
  induction n with
  | zero =>
      intro s hm hph hle
      exact absurd hle (by have := stepsFrom_pos s hph; omega)
  | succ n ih =>
      intro s hm hph hle
      rcases steps_dec s hm hph with ⟨h1, h2, _⟩ | ⟨h1, h3⟩
      · rw [show advanceN s (n + 1) = advanceN (advance s) n from rfl,
          advanceN_idle _ h1 n]
        exact ⟨h1, h2⟩
      · have hm' : (advance s).mode = Mode.Trigger := by
          rw [(advance_keeps s).2.2.1]; exact hm
        exact (show advanceN s (n + 1) = advanceN (advance s) n from rfl) ▸
          ih (advance s) hm' h1 (by omega)

/-- Within one envelope cycle (no further events) the envelope stays in
`[1 - vel_depth, 1]`. -/
theorem cycle_env_bounds (s : Ducker) (hvd0 : 0 ≤ s.vel_depth) (hvd1 : s.vel_depth ≤ 1)
    (he : 1 - s.vel_depth ≤ s.envelope) (he1 : s.envelope ≤ 1) (n : ℕ) :
    1 - s.vel_depth ≤ (advanceN s n).envelope ∧ (advanceN s n).envelope ≤ 1 := by
  induction n with
  | zero => exact ⟨he, he1⟩
  | succ n ih =>
      have hv := advanceN_vd s n
      rw [advanceN_succ_right]
      have := advance_env_mem (advanceN s n) (by rw [hv]; exact hvd0)
        (by rw [hv]; exact hvd1) (by rw [hv]; exact ih.1) ih.2
      rw [hv] at this
      exact this

theorem start_attack_phase_ne_idle (s : Ducker) :
    (start_attack s).phase ≠ Phase.Idle := by
  by_cases h1 : 0 < attack_samples s
  · rw [start_attack_pos s h1]; simp
  · by_cases h3 : hold_samples s ≤ 0 ∧ s.mode = Mode.Trigger
    · rw [start_attack_release s (by omega) h3]; simp
    · rw [start_attack_hold s (by omega) h3]; simp

/-! ## Claims -/

/-- C3: `start_attack` sets the Attack length from the attack duration;
when it is ≤ 0 it immediately sets the gain to `1 - effective_depth` and
enters Hold with Hold's computed length; when Hold's length is also ≤ 0
and the mode is Trigger it immediately enters Release with Release's
computed length; in Gate mode a zero-length Hold is entered and kept. -/
theorem c3_start_attack_cascade (s : Ducker) :
    (0 < attack_samples s →
      start_attack s = { s with phase := Phase.Attack, phase_pos := 0,
                                phase_len := attack_samples s }) ∧
    (attack_samples s ≤ 0 → (0 < hold_samples s ∨ s.mode = Mode.Gate) →
      start_attack s = { s with envelope := 1 - s.vel_depth, phase := Phase.Hold,
                                phase_pos := 0, phase_len := hold_samples s }) ∧
    (attack_samples s ≤ 0 → hold_samples s ≤ 0 → s.mode = Mode.Trigger →
      start_attack s = { s with envelope := 1 - s.vel_depth, phase := Phase.Release,
                                phase_pos := 0, phase_len := release_samples s }) := by
  refine ⟨start_attack_pos s, fun h hOr => start_attack_hold s h ?_,
    fun h hh hmt => start_attack_release s h ⟨hh, hmt⟩⟩
  rcases hOr with hpos | hgate
  · exact fun hand => by omega
  · exact fun hand => by rw [hgate] at hand; exact absurd hand.2 (by simp)

theorem c3_start_attack_cascade_witness :
    (start_attack (withConfig v2_create_instance zeroConfig)).phase = Phase.Release := by
  rw [(c3_start_attack_cascade (withConfig v2_create_instance zeroConfig)).2.2
    (by with_unfolding_all decide) (by with_unfolding_all decide) rfl]

/-- C9: a MIDI message that is shorter than 3 bytes, or whose channel does
not pass a nonzero channel filter, or whose note differs from the trigger
note, leaves the whole instance state unchanged. -/
theorem c9_nonqualifying_noop (s : Ducker) (m : List ℕ)
    (h : m.length < 3 ∨
      (0 < s.channel ∧ ((m.getD 0 0 &&& 0x0F : ℕ) : ℤ) + 1 ≠ s.channel) ∨
      ((m.getD 1 0 : ℕ) : ℤ) ≠ s.trigger_note) :
    ducker_on_midi s m = s := by
  rcases h with h | h | h
  · exact on_midi_short s m h
  · by_cases hlen : m.length < 3
    · exact on_midi_short s m hlen
    · exact on_midi_wrong_channel s m hlen h
  · by_cases hlen : m.length < 3
    · exact on_midi_short s m hlen
    · by_cases hch : 0 < s.channel ∧ ((m.getD 0 0 &&& 0x0F : ℕ) : ℤ) + 1 ≠ s.channel
      · exact on_midi_wrong_channel s m hlen hch
      · exact on_midi_wrong_note s m hlen hch h

theorem c9_nonqualifying_noop_witness :
    ducker_on_midi v2_create_instance [0x90, 36] = v2_create_instance ∧
    ducker_on_midi v2_create_instance [0x91, 36, 100] = v2_create_instance ∧
    ducker_on_midi v2_create_instance [0x90, 35, 100] = v2_create_instance :=
  ⟨c9_nonqualifying_noop _ _ (Or.inl (by norm_num)),
   c9_nonqualifying_noop _ _ (Or.inr (Or.inl (by with_unfolding_all decide))),
   c9_nonqualifying_noop _ _ (Or.inr (Or.inr (by with_unfolding_all decide)))⟩

/-- C5 (amended): for every qualifying note-on, the code computes
`effective_depth = depth * (1 - vel_sens + vel_sens * intensity/127)`
(the `vel_sens = 0` branch produces the same value as the formula).
With `vel_sens = 0` it equals `depth` for every intensity; with
`vel_sens = 1` it equals `depth * intensity/127`, which is `depth` at the
maximum intensity 127 and `depth/127` — not 0 — at the minimum qualifying
intensity 1 (an intensity-0 event is treated as a stop and never computes
an effective depth). -/
theorem c5_effective_depth (s : Ducker) (m : List ℕ)
    (hvs : 0 ≤ s.vel_sens)
    (hlen : ¬ m.length < 3)
    (hch : ¬ (0 < s.channel ∧ ((m.getD 0 0 &&& 0x0F : ℕ) : ℤ) + 1 ≠ s.channel))
    (hnote : ((m.getD 1 0 : ℕ) : ℤ) = s.trigger_note)
    (hon : m.getD 0 0 &&& 0xF0 = 0x90 ∧ 0 < m.getD 2 0) :
    (ducker_on_midi s m).vel_depth =
      s.depth * (1 - s.vel_sens + s.vel_sens * ((m.getD 2 0 : ℚ) / 127)) ∧
    (s.vel_sens = 0 → (ducker_on_midi s m).vel_depth = s.depth) ∧
    (s.vel_sens = 1 →
      (ducker_on_midi s m).vel_depth = s.depth * ((m.getD 2 0 : ℚ) / 127) ∧
      (m.getD 2 0 = 127 → (ducker_on_midi s m).vel_depth = s.depth)) := by
  rw [on_midi_note_on s m hlen hch hnote hon]
  rw [(start_attack_keeps _).2.2.2.2.2.2.2.2.2.1]
  have hform : ({ s with
      active_notes := s.active_notes + 1,
      vel_depth := s.depth *
        (if 0 < s.vel_sens then
          1 - s.vel_sens + s.vel_sens * ((m.getD 2 0 : ℚ) / 127)
        else 1) } : Ducker).vel_depth =
      s.depth * (1 - s.vel_sens + s.vel_sens * ((m.getD 2 0 : ℚ) / 127)) := by
    show s.depth * _ = _
    split_ifs with hpos
    · rfl
    · have : s.vel_sens = 0 := le_antisymm (by linarith) hvs
      rw [this]
      ring
  refine ⟨hform, fun h0 => ?_, fun h1 => ⟨?_, fun hv => ?_⟩⟩
  · rw [hform, h0]; ring
  · rw [hform, h1]; ring
  · rw [hform, h1, hv]; norm_num

/-- Counterexample to C5 as stated: with full velocity sensitivity and
depth 1, the minimum-intensity qualifying note-on (velocity 1) yields
effective depth 1/127, not 0; a velocity-0 event takes the note-off path
and leaves `vel_depth` untouched. -/
theorem c5_counterexample :
    (ducker_on_midi velState [0x90, 36, 1]).vel_depth = 1 / 127 ∧
    (ducker_on_midi velState [0x90, 36, 1]).phase = Phase.Attack ∧
    (ducker_on_midi velState [0x90, 36, 1]).active_notes = 1 ∧
    (ducker_on_midi velState [0x90, 36, 0]).vel_depth = velState.vel_depth ∧
    ((1 : ℚ) / 127 ≠ 0) := by
  with_unfolding_all decide

theorem c5_effective_depth_witness :
    (ducker_on_midi velState [0x90, 36, 127]).vel_depth =
      velState.depth * ((127 : ℚ) / 127) :=
  ((c5_effective_depth velState [0x90, 36, 127] (by norm_num [velState])
    (by norm_num) (by with_unfolding_all decide) (by with_unfolding_all decide)
    (by with_unfolding_all decide)).2.2 rfl).1

set_option maxRecDepth 4000 in
theorem c1_start_eq : c1Start = c1Hold 0 := by
  with_unfolding_all decide

theorem c1_hold_steps : ∀ k : ℕ, k ≤ 2204 → advanceN c1Start k = c1Hold (k : ℤ) := by
  intro k
  induction k with
  | zero => intro _; exact c1_start_eq
  | succ k ih =>
      intro hk
      rw [advanceN_succ_right, ih (by omega)]
      rw [advance_hold_stay (c1Hold (k : ℤ)) rfl ?hcond]
      case hcond =>
        rintro ⟨_, hle⟩
        have : ((2205 : ℤ)) ≤ (k : ℤ) + 1 := hle
        omega
      show ({ c1Hold (k : ℤ) with
        envelope := 1 - (c1Hold (k : ℤ)).vel_depth,
        phase_pos := (c1Hold (k : ℤ)).phase_pos + 1 } : Ducker) = c1Hold ((k : ℤ) + 1)
      simp [c1Hold]

set_option maxRecDepth 4000 in
theorem c1_state_2205 :
    advanceN c1Start 2205 =
      { c1Hold 0 with phase := Phase.Release, phase_pos := 0, phase_len := 0 } := by
  rw [show (2205 : ℕ) = 2204 + 1 from rfl, advanceN_succ_right,
    c1_hold_steps 2204 (by norm_num)]
  with_unfolding_all decide

set_option maxRecDepth 4000 in
theorem c1_state_2206 :
    advanceN c1Start 2206 =
      { c1Hold 0 with phase := Phase.Idle, phase_pos := 1, phase_len := 0,
                      envelope := 1 } := by
  rw [show (2206 : ℕ) = 2205 + 1 from rfl, advanceN_succ_right, c1_state_2205]
  with_unfolding_all decide

/-- C1: in the concrete Trigger scenario (channel 1, note 36, depth 1,
attack 0, hold 0.1 ⇒ 2205 samples, release 0, Linear), after the
qualifying note-on the gain applied to samples 0..2204 is exactly 0, the
gain at sample 2205 is exactly 1, and the phase after sample 2205 is
Idle. -/
theorem c1_concrete_scenario :
    (∀ i : ℕ, i ≤ 2204 → gainAt c1Start i = 0) ∧
    gainAt c1Start 2205 = 1 ∧
    (advanceN c1Start 2206).phase = Phase.Idle := by
  refine ⟨?_, ?_, ?_⟩
  · intro i hi
    unfold gainAt
    by_cases hlt : i ≤ 2203
    · rw [c1_hold_steps (i + 1) (by omega)]
      rfl
    · have hieq : i = 2204 := by omega
      subst hieq
      rw [show (2204 : ℕ) + 1 = 2205 from rfl, c1_state_2205]
      rfl
  · unfold gainAt
    rw [show (2205 : ℕ) + 1 = 2206 from rfl, c1_state_2206]
  · rw [c1_state_2206]

theorem c1_concrete_scenario_witness :
    gainAt c1Start 1000 = 0 ∧ gainAt c1Start 2205 = 1 :=
  ⟨c1_concrete_scenario.1 1000 (by norm_num), c1_concrete_scenario.2.1⟩

theorem envInv_init (c : Config) : EnvInv (withConfig v2_create_instance c) := by
  refine ⟨fun hph => ?_, fun hph => ?_, fun hph => ?_⟩ <;>
    exact absurd hph (by simp [withConfig, v2_create_instance])

theorem runEvents_envInv : ∀ evs : List Ev, ∀ s : Ducker,
    EnvInv s → EnvInv (runEvents s evs) := by
  intro evs
  induction evs with
  | nil => intro s h; exact h
  | cons e rest ih =>
      intro s h
      refine ih (applyEv s e) ?_
      cases e with
      | midi m => exact envInv_midi s m h
      | tick => exact envInv_advance s h

/-- C2 (amended): in every reachable state, Attack satisfies
`0 ≤ pos < len` (so Attack is never in a nonpositive-length phase), Hold
satisfies `0 ≤ pos` with `pos < len` in Trigger mode (Gate-mode Hold can
dwell with `pos ≥ len`), and Release satisfies `pos < len` unless it was
just entered with `pos = 0` and `len ≤ 0`, in which case it collapses to
Idle on the next processed sample. -/
theorem c2_phase_invariant (c : Config) (s : Ducker) (hr : Reachable c s) :
    EnvInv s := by
  obtain ⟨evs, _, hrun⟩ := hr
  rw [← hrun]
  exact runEvents_envInv evs _ (envInv_init c)

theorem c2_phase_invariant_witness : EnvInv zeroState := by
  refine c2_phase_invariant zeroConfig zeroState ⟨[Ev.midi [0x90, 36, 127]], ?_, rfl⟩
  intro e he
  rw [List.mem_singleton] at he
  subst he
  exact Or.inr (by norm_num)

/-- Counterexample to C2 as stated: with all durations zero in Trigger
mode, one qualifying note-on reaches a state whose phase is Release with
`phase_len = 0` — a phase with nonpositive length is entered (for one
sample tick), refuting "no phase with phase_length ≤ 0 is ever entered". -/
theorem c2_counterexample :
    Reachable zeroConfig zeroState ∧ zeroState.phase = Phase.Release ∧
    zeroState.phase_len = 0 ∧ ¬ ClaimedPhaseInv zeroState := by
  refine ⟨⟨[Ev.midi [0x90, 36, 127]], ?_, rfl⟩, ?_, ?_, ?_⟩
  · intro e he
    rw [List.mem_singleton] at he
    subst he
    exact Or.inr (by norm_num)
  · with_unfolding_all decide
  · with_unfolding_all decide
  · intro hclaim
    have h2 := hclaim.2 (show zeroState.phase ≠ Phase.Idle by with_unfolding_all decide)
    have h3 : zeroState.phase_len = 0 := by with_unfolding_all decide
    omega

/-- C6: in Gate mode, a qualifying stop that brings the held count from 1
to 0 while the phase is Hold and the release length is nonpositive snaps
directly to Idle with gain exactly 1 in the same event (no release curve
is evaluated); and in any reachable Gate-mode state whose phase is already
Release or Idle, a stop event leaves the state entirely unchanged. -/
theorem c6_gate_stop_snap :
    (∀ s : Ducker, ∀ m : List ℕ,
      s.mode = Mode.Gate → s.phase = Phase.Hold → s.active_notes = 1 →
      release_samples s ≤ 0 →
      ¬ m.length < 3 →
      ¬ (0 < s.channel ∧ ((m.getD 0 0 &&& 0x0F : ℕ) : ℤ) + 1 ≠ s.channel) →
      ((m.getD 1 0 : ℕ) : ℤ) = s.trigger_note →
      (m.getD 0 0 &&& 0xF0 = 0x80 ∨ (m.getD 0 0 &&& 0xF0 = 0x90 ∧ m.getD 2 0 = 0)) →
      ducker_on_midi s m = { s with active_notes := 0, phase := Phase.Idle,
                                    phase_pos := 0, phase_len := release_samples s,
                                    envelope := 1 }) ∧
    (∀ c : Config, ∀ s : Ducker, ∀ m : List ℕ,
      ValidConfig c → c.mode = Mode.Gate → Reachable c s →
      (s.phase = Phase.Release ∨ s.phase = Phase.Idle) →
      (m.getD 0 0 &&& 0xF0 = 0x80 ∨ (m.getD 0 0 &&& 0xF0 = 0x90 ∧ m.getD 2 0 = 0)) →
      ducker_on_midi s m = s) := by
  constructor
  · intro s m hmode hph hact hrel hlen hch hnote hoff
    rw [on_midi_note_off s m hlen hch hnote hoff]
    unfold noteOffAction
    have hdec : noteOffDec s = { s with active_notes := 0 } := by
      unfold noteOffDec
      rw [if_pos (by omega)]
      have hz : s.active_notes - 1 = 0 := by omega
      rw [hz]
    rw [hdec]
    rw [if_pos ⟨hmode, rfl, Or.inl hph⟩]
    have hrel2 : release_samples ({ s with active_notes := 0 } : Ducker) ≤ 0 := by
      rw [release_samples_congr (rfl : ({ s with active_notes := 0 } : Ducker).release = s.release)]
      exact hrel
    rw [start_release_zero _ hrel2]
    have e2 : release_samples ({ s with active_notes := 0 } : Ducker) = release_samples s :=
      release_samples_congr rfl
    rw [e2]
  · intro c s m hc hmode hr hph hoff
    have hinv := reachable_inv c s hc hr
    have hsmode : s.mode = Mode.Gate :=
      (show s.mode = c.mode from congrArg Config.mode hinv.1).trans hmode
    have hact : s.active_notes = 0 := hinv.2.2.2.2.2.2.2 hsmode hph
    by_cases hlen : m.length < 3
    · exact on_midi_short s m hlen
    by_cases hch : 0 < s.channel ∧ ((m.getD 0 0 &&& 0x0F : ℕ) : ℤ) + 1 ≠ s.channel
    · exact on_midi_wrong_channel s m hlen hch
    by_cases hnote : ((m.getD 1 0 : ℕ) : ℤ) = s.trigger_note
    case neg => exact on_midi_wrong_note s m hlen hch hnote
    rw [on_midi_note_off s m hlen hch hnote hoff]
    unfold noteOffAction
    have hdec : noteOffDec s = s := by
      unfold noteOffDec
      rw [if_neg (by omega)]
    rw [hdec]
    rw [if_neg ?hcond]
    case hcond =>
      rintro ⟨_, _, hHA | hHA⟩ <;> rcases hph with hph | hph <;>
        rw [hph] at hHA <;> exact absurd hHA (by simp)

theorem c6_gate_stop_snap_witness :
    ducker_on_midi
        (ducker_on_midi (withConfig v2_create_instance gateConfig) [0x90, 36, 127])
        [0x80, 36, 0] =
      { ducker_on_midi (withConfig v2_create_instance gateConfig) [0x90, 36, 127] with
        active_notes := 0, phase := Phase.Idle, phase_pos := 0,
        phase_len := release_samples
          (ducker_on_midi (withConfig v2_create_instance gateConfig) [0x90, 36, 127]),
        envelope := 1 } ∧
    ducker_on_midi (withConfig v2_create_instance gateConfig) [0x80, 36, 0] =
      withConfig v2_create_instance gateConfig := by
  constructor
  · exact c6_gate_stop_snap.1 _ [0x80, 36, 0]
      (by with_unfolding_all decide) (by with_unfolding_all decide)
      (by with_unfolding_all decide) (by with_unfolding_all decide)
      (by norm_num) (by with_unfolding_all decide)
      (by with_unfolding_all decide) (by with_unfolding_all decide)
  · exact c6_gate_stop_snap.2 gateConfig _ [0x80, 36, 0]
      (by with_unfolding_all decide) rfl ⟨[], by simp, rfl⟩
      (Or.inr rfl) (by with_unfolding_all decide)

/-- C7: a qualifying stop while at least two triggers are held only
decrements the count (the phase, gain and timing fields are untouched and
no release starts); concretely, in Gate mode two starts followed by one
stop leave the envelope in Hold with one note still held. -/
theorem c7_overlapping_gate :
    (∀ s : Ducker, ∀ m : List ℕ,
      2 ≤ s.active_notes →
      ¬ m.length < 3 →
      ¬ (0 < s.channel ∧ ((m.getD 0 0 &&& 0x0F : ℕ) : ℤ) + 1 ≠ s.channel) →
      ((m.getD 1 0 : ℕ) : ℤ) = s.trigger_note →
      (m.getD 0 0 &&& 0xF0 = 0x80 ∨ (m.getD 0 0 &&& 0xF0 = 0x90 ∧ m.getD 2 0 = 0)) →
      ducker_on_midi s m = { s with active_notes := s.active_notes - 1 }) ∧
    ((ducker_on_midi (ducker_on_midi
        (ducker_on_midi (withConfig v2_create_instance gateConfig) [0x90, 36, 127])
        [0x90, 36, 127]) [0x80, 36, 0]).phase = Phase.Hold ∧
     (ducker_on_midi (ducker_on_midi
        (ducker_on_midi (withConfig v2_create_instance gateConfig) [0x90, 36, 127])
        [0x90, 36, 127]) [0x80, 36, 0]).active_notes = 1) := by
  constructor
  · intro s m hact hlen hch hnote hoff
    rw [on_midi_note_off s m hlen hch hnote hoff]
    unfold noteOffAction
    have hdec : noteOffDec s = { s with active_notes := s.active_notes - 1 } := by
      unfold noteOffDec
      rw [if_pos (by omega)]
    rw [hdec]
    rw [if_neg ?hcond]
    case hcond =>
      rintro ⟨_, hzero, _⟩
      have : s.active_notes - 1 = 0 := hzero
      omega
  · constructor <;> with_unfolding_all decide

theorem c7_overlapping_gate_witness :
    ducker_on_midi
        (ducker_on_midi (ducker_on_midi (withConfig v2_create_instance gateConfig)
          [0x90, 36, 127]) [0x90, 36, 127]) [0x80, 36, 0] =
      { ducker_on_midi (ducker_on_midi (withConfig v2_create_instance gateConfig)
          [0x90, 36, 127]) [0x90, 36, 127] with
        active_notes := (ducker_on_midi (ducker_on_midi
          (withConfig v2_create_instance gateConfig)
          [0x90, 36, 127]) [0x90, 36, 127]).active_notes - 1 } :=
  c7_overlapping_gate.1 _ [0x80, 36, 0]
    (by with_unfolding_all decide) (by norm_num)
    (by with_unfolding_all decide) (by with_unfolding_all decide)
    (by with_unfolding_all decide)

theorem clampf_eq_self {x lo hi : ℚ} (h1 : lo ≤ x) (h2 : x ≤ hi) :
    clampf x lo hi = x := by
  unfold clampf
  split_ifs <;> linarith

/-- Loading a serialized state into any instance reproduces the original
parameters exactly, when they are valid and 3-decimal representable. -/
theorem roundTrip_params (s : Ducker) (hval : ValidConfig (configOf s))
    (h3 : threeDecimal s) : configOf (roundTrip s) = configOf s := by
  obtain ⟨hd, ha, hh, hr, hv⟩ := h3
  have hc0 : (0 : ℤ) ≤ s.channel := hval.1
  have hc1 : s.channel ≤ 16 := hval.2.1
  have ht0 : (0 : ℤ) ≤ s.trigger_note := hval.2.2.1
  have ht1 : s.trigger_note ≤ 127 := hval.2.2.2.1
  have hd0 : (0 : ℚ) ≤ s.depth := hval.2.2.2.2.1
  have hd1 : s.depth ≤ 1 := hval.2.2.2.2.2.1
  have ha0 : (0 : ℚ) ≤ s.attack := hval.2.2.2.2.2.2.1
  have ha1 : s.attack ≤ 1 := hval.2.2.2.2.2.2.2.1
  have hh0 : (0 : ℚ) ≤ s.hold := hval.2.2.2.2.2.2.2.2.1
  have hh1 : s.hold ≤ 1 := hval.2.2.2.2.2.2.2.2.2.1
  have hr0 : (0 : ℚ) ≤ s.release := hval.2.2.2.2.2.2.2.2.2.2.1
  have hr1 : s.release ≤ 1 := hval.2.2.2.2.2.2.2.2.2.2.2.1
  have hv0 : (0 : ℚ) ≤ s.vel_sens := hval.2.2.2.2.2.2.2.2.2.2.2.2.1
  have hv1 : s.vel_sens ≤ 1 := hval.2.2.2.2.2.2.2.2.2.2.2.2.2
  unfold roundTrip v2_set_param_state serializeState configOf
  simp only [Config.mk.injEq]
  refine ⟨?_, ?_, ?_, ?_, ?_, ?_, ?_, ?_, ?_⟩
  · rw [clampf_eq_self (by exact_mod_cast hc0) (by exact_mod_cast hc1), cInt_intCast]
  · rw [clampf_eq_self (by exact_mod_cast ht0) (by exact_mod_cast ht1), cInt_intCast]
  · cases s.mode <;> with_unfolding_all decide
  · rw [hd, clampf_eq_self hd0 hd1]
  · rw [ha, clampf_eq_self ha0 ha1]
  · rw [hh, clampf_eq_self hh0 hh1]
  · rw [hr, clampf_eq_self hr0 hr1]
  · cases s.curve <;> with_unfolding_all decide
  · rw [hv, clampf_eq_self hv0 hv1]

/-- `v2_get_param` reads only the nine parameters. -/
theorem get_congr (s₁ s₂ : Ducker) (h : configOf s₁ = configOf s₂) (key : String) :
    v2_get_param s₁ key = v2_get_param s₂ key := by
  have h1 : s₁.channel = s₂.channel := congrArg Config.channel h
  have h2 : s₁.trigger_note = s₂.trigger_note := congrArg Config.trigger_note h
  have h3 : s₁.mode = s₂.mode := congrArg Config.mode h
  have h4 : s₁.depth = s₂.depth := congrArg Config.depth h
  have h5 : s₁.attack = s₂.attack := congrArg Config.attack h
  have h6 : s₁.hold = s₂.hold := congrArg Config.hold h
  have h7 : s₁.release = s₂.release := congrArg Config.release h
  have h8 : s₁.curve = s₂.curve := congrArg Config.curve h
  have h9 : s₁.vel_sens = s₂.vel_sens := congrArg Config.vel_sens h
  unfold v2_get_param
  rw [h1, h2, h3, h4, h5, h6, h7, h8, h9]

/-- C8 (amended): for every valid configuration whose float parameters are
exact multiples of 0.001, serializing the state and loading it into a
fresh instance reproduces identical get-by-name results for every key. -/
theorem c8_state_roundtrip (s : Ducker) (hval : ValidConfig (configOf s))
    (h3 : threeDecimal s) (key : String) :
    v2_get_param (roundTrip s) key = v2_get_param s key :=
  get_congr _ _ (roundTrip_params s hval h3) key

/-- Counterexample to C8 as stated: `depth = 0.0246` is a valid, reachable
configuration value, but serialization rounds it to `0.025` (three
decimals), so the fresh instance renders `"depth"` as `"0.03"` while the
original renders `"0.02"`. -/
theorem c8_counterexample :
    ValidConfig (configOf c8State) ∧
    v2_get_param c8State "depth" = some "0.02" ∧
    v2_get_param (roundTrip c8State) "depth" = some "0.03" := by
  refine ⟨?_, ?_, ?_⟩ <;> with_unfolding_all decide

theorem c8_state_roundtrip_witness :
    v2_get_param (roundTrip v2_create_instance) "depth" =
      v2_get_param v2_create_instance "depth" :=
  c8_state_roundtrip v2_create_instance (by with_unfolding_all decide)
    (by with_unfolding_all decide) "depth"

/-- Truncation toward zero never increases magnitude. -/
theorem cInt_abs_le (q : ℚ) : |((cInt q : ℤ) : ℚ)| ≤ |q| := by
  unfold cInt
  split_ifs with h
  · have h1 : (0 : ℚ) ≤ -q := by linarith
    have h2 : (⌊-q⌋ : ℚ) ≤ -q := Int.floor_le (-q)
    have h3 : (0 : ℤ) ≤ ⌊-q⌋ := Int.floor_nonneg.mpr h1
    have h4 : (0 : ℚ) ≤ (⌊-q⌋ : ℚ) := by exact_mod_cast h3
    rw [abs_of_neg h, Int.cast_neg, abs_of_nonpos (by linarith)]
    linarith
  · push_neg at h
    have h2 : (⌊q⌋ : ℚ) ≤ q := Int.floor_le q
    have h3 : (0 : ℤ) ≤ ⌊q⌋ := Int.floor_nonneg.mpr h
    have h4 : (0 : ℚ) ≤ (⌊q⌋ : ℚ) := by exact_mod_cast h3
    rw [abs_of_nonneg h, abs_of_nonneg h4]
    exact h2

theorem clamp16_id {v : ℚ} (h0 : -32768 ≤ v) (h1 : v ≤ 32767) : clamp16 v = v := by
  unfold clamp16
  split_ifs <;> linarith

/-- C10: in every reachable state the envelope is in [0,1]; processing a
frame outputs exactly the truncation of each input sample times the
post-advance envelope, the int16 clamp branches never alter the value, and
the output magnitude never exceeds the input magnitude. -/
theorem c10_output_bounded (c : Config) (s : Ducker) (hc : ValidConfig c)
    (hr : Reachable c s) :
    (0 ≤ s.envelope ∧ s.envelope ≤ 1) ∧
    (∀ l r : ℤ, -32768 ≤ l → l ≤ 32767 → -32768 ≤ r → r ≤ 32767 →
      (processSample s l r).2.1 = cInt ((l : ℚ) * (advance s).envelope) ∧
      (processSample s l r).2.2 = cInt ((r : ℚ) * (advance s).envelope) ∧
      ((l : ℚ) * (advance s).envelope ≤ 32767 ∧
        -32768 ≤ (l : ℚ) * (advance s).envelope) ∧
      ((r : ℚ) * (advance s).envelope ≤ 32767 ∧
        -32768 ≤ (r : ℚ) * (advance s).envelope) ∧
      |(processSample s l r).2.1| ≤ |l| ∧
      |(processSample s l r).2.2| ≤ |r|) := by
  have hinv := reachable_inv c s hc hr
  have hinv' := duckerInv_advance c s hinv
  obtain ⟨_, _, _, he0, he1, _, _, _⟩ := hinv
  obtain ⟨_, _, _, he0a, he1a, _, _, _⟩ := hinv'
  refine ⟨⟨he0, he1⟩, ?_⟩
  intro l r hl0 hl1 hr0 hr1
  have hlq0 : (-32768 : ℚ) ≤ (l : ℚ) := by exact_mod_cast hl0
  have hlq1 : (l : ℚ) ≤ 32767 := by exact_mod_cast hl1
  have hrq0 : (-32768 : ℚ) ≤ (r : ℚ) := by exact_mod_cast hr0
  have hrq1 : (r : ℚ) ≤ 32767 := by exact_mod_cast hr1
  have hml : (l : ℚ) * (advance s).envelope ≤ 32767 ∧
      -32768 ≤ (l : ℚ) * (advance s).envelope := by
    constructor <;> nlinarith
  have hmr : (r : ℚ) * (advance s).envelope ≤ 32767 ∧
      -32768 ≤ (r : ℚ) * (advance s).envelope := by
    constructor <;> nlinarith
  have hout1 : (processSample s l r).2.1 = cInt ((l : ℚ) * (advance s).envelope) := by
    show cInt (clamp16 ((l : ℚ) * (advance s).envelope)) = _
    rw [clamp16_id hml.2 hml.1]
  have hout2 : (processSample s l r).2.2 = cInt ((r : ℚ) * (advance s).envelope) := by
    show cInt (clamp16 ((r : ℚ) * (advance s).envelope)) = _
    rw [clamp16_id hmr.2 hmr.1]
  refine ⟨hout1, hout2, hml, hmr, ?_, ?_⟩
  · rw [hout1]
    have hq : |(l : ℚ) * (advance s).envelope| ≤ |(l : ℚ)| := by
      rw [abs_mul, abs_of_nonneg he0a]
      nlinarith [abs_nonneg (l : ℚ)]
    have hfinal : ((|cInt ((l : ℚ) * (advance s).envelope)| : ℤ) : ℚ) ≤
        ((|l| : ℤ) : ℚ) := by
      rw [Int.cast_abs, Int.cast_abs]
      exact le_trans (cInt_abs_le _) hq
    exact_mod_cast hfinal
  · rw [hout2]
    have hq : |(r : ℚ) * (advance s).envelope| ≤ |(r : ℚ)| := by
      rw [abs_mul, abs_of_nonneg he0a]
      nlinarith [abs_nonneg (r : ℚ)]
    have hfinal : ((|cInt ((r : ℚ) * (advance s).envelope)| : ℤ) : ℚ) ≤
        ((|r| : ℤ) : ℚ) := by
      rw [Int.cast_abs, Int.cast_abs]
      exact le_trans (cInt_abs_le _) hq
    exact_mod_cast hfinal

theorem c10_output_bounded_witness :
    (processSample (withConfig v2_create_instance c1Config) 1000 (-32768)).2.1 =
      cInt ((1000 : ℤ) * (advance (withConfig v2_create_instance c1Config)).envelope) ∧
    |(processSample (withConfig v2_create_instance c1Config) 1000 (-32768)).2.2| ≤
      |(-32768 : ℤ)| := by
  have h := (c10_output_bounded c1Config (withConfig v2_create_instance c1Config)
    (by with_unfolding_all decide) ⟨[], by simp, rfl⟩).2 1000 (-32768)
    (by norm_num) (by norm_num) (by norm_num) (by norm_num)
  exact ⟨h.1, h.2.2.2.2.2⟩

/-- C4: for every attack, hold and release setting, in a Trigger-mode
cycle started by one qualifying note-on from the idle instance, the gain
applied to every processed sample stays within `[1 - effective_depth, 1]`,
and the gain is exactly 1 again within one sample after the total cycle
length (attack + hold + release samples). -/
theorem c4_trigger_cycle (c : Config) (m : List ℕ) (s0 : Ducker)
    (hc : ValidConfig c) (hmt : c.mode = Mode.Trigger)
    (hlen : ¬ m.length < 3)
    (hch : ¬ (0 < c.channel ∧ ((m.getD 0 0 &&& 0x0F : ℕ) : ℤ) + 1 ≠ c.channel))
    (hnote : ((m.getD 1 0 : ℕ) : ℤ) = c.trigger_note)
    (hon : m.getD 0 0 &&& 0xF0 = 0x90 ∧ 0 < m.getD 2 0)
    (hvel : m.getD 2 0 ≤ 127)
    (hs0 : s0 = ducker_on_midi (withConfig v2_create_instance c) m) :
    (∀ n : ℕ, 1 - s0.vel_depth ≤ gainAt s0 n ∧ gainAt s0 n ≤ 1) ∧
    gainAt s0 ((attack_samples s0 + hold_samples s0 + release_samples s0).toNat) = 1 := by
  subst hs0
  set sc := withConfig v2_create_instance c with hsc
  rw [on_midi_note_on sc m hlen hch hnote hon]
  set s2 : Ducker := { sc with
    active_notes := sc.active_notes + 1,
    vel_depth := sc.depth *
      (if 0 < sc.vel_sens then
        1 - sc.vel_sens + sc.vel_sens * ((m.getD 2 0 : ℚ) / 127)
      else 1) } with hs2
  have hvsb := vel_scale_bounds sc.vel_sens (m.getD 2 0)
    (hc.2.2.2.2.2.2.2.2.2.2.2.2.1) (hc.2.2.2.2.2.2.2.2.2.2.2.2.2) hvel
  have hdep0 : (0 : ℚ) ≤ sc.depth := hc.2.2.2.2.1
  have hdep1 : sc.depth ≤ 1 := hc.2.2.2.2.2.1
  have hvd0 : (0 : ℚ) ≤ s2.vel_depth := by
    show (0 : ℚ) ≤ sc.depth * _
    exact mul_nonneg hdep0 hvsb.1
  have hvd1 : s2.vel_depth ≤ 1 := by
    show sc.depth * _ ≤ 1
    nlinarith [hvsb.1, hvsb.2]
  have hvd_keep : (start_attack s2).vel_depth = s2.vel_depth :=
    (start_attack_keeps s2).2.2.2.2.2.2.2.2.2.1
  have henv : 1 - s2.vel_depth ≤ (start_attack s2).envelope ∧
      (start_attack s2).envelope ≤ 1 := by
    rcases start_attack_env_cases s2 with h | h <;> rw [h]
    · constructor
      · show 1 - s2.vel_depth ≤ (1 : ℚ)
        linarith
      · show (1 : ℚ) ≤ 1
        linarith
    · constructor
      · linarith
      · linarith
  constructor
  · intro n
    unfold gainAt
    have hb := cycle_env_bounds (start_attack s2)
      (by rw [hvd_keep]; exact hvd0) (by rw [hvd_keep]; exact hvd1)
      (by rw [hvd_keep]; exact henv.1) henv.2 (n + 1)
    exact hb
  · -- total cycle length over the started state equals that over s2
    have hA : attack_samples (start_attack s2) = attack_samples s2 :=
      attack_samples_congr (start_attack_keeps s2).2.2.2.2.1
    have hH : hold_samples (start_attack s2) = hold_samples s2 :=
      hold_samples_congr (start_attack_keeps s2).2.2.2.2.2.1
    have hR : release_samples (start_attack s2) = release_samples s2 :=
      release_samples_congr (start_attack_keeps s2).2.2.2.2.2.2.1
    have hat0 : (0 : ℚ) ≤ s2.attack := hc.2.2.2.2.2.2.1
    have hho0 : (0 : ℚ) ≤ s2.hold := hc.2.2.2.2.2.2.2.2.1
    have hre0 : (0 : ℚ) ≤ s2.release := hc.2.2.2.2.2.2.2.2.2.2.1
    have hA0 : 0 ≤ attack_samples s2 := ms_to_samples_nonneg (by positivity)
    have hH0 : 0 ≤ hold_samples s2 := ms_to_samples_nonneg (by positivity)
    have hR0 : 0 ≤ release_samples s2 := ms_to_samples_nonneg (by positivity)
    have hm2 : s2.mode = Mode.Trigger := hmt
    have hsteps : stepsFrom (start_attack s2) ≤
        (attack_samples s2 + hold_samples s2 + release_samples s2).toNat + 1 := by
      by_cases hApos : 0 < attack_samples s2
      · rw [start_attack_pos s2 hApos]
        simp only [stepsFrom, phaseSteps]
        simp only [hold_samples, release_samples, attack_samples, ms_to_samples]
          at hA0 hH0 hR0 hApos ⊢
        split_ifs <;> omega
      · by_cases h3 : hold_samples s2 ≤ 0 ∧ s2.mode = Mode.Trigger
        · have h3a := h3.1
          rw [start_attack_release s2 (by omega) h3]
          simp only [stepsFrom, phaseSteps]
          simp only [hold_samples, release_samples, attack_samples, ms_to_samples]
            at hA0 hH0 hR0 hApos h3a ⊢
          omega
        · have hHpos : ¬ hold_samples s2 ≤ 0 := fun hle => h3 ⟨hle, hm2⟩
          rw [start_attack_hold s2 (by omega) h3]
          simp only [stepsFrom, phaseSteps]
          simp only [hold_samples, release_samples, attack_samples, ms_to_samples]
            at hA0 hH0 hR0 hApos hHpos ⊢
          omega
    have hmode : (start_attack s2).mode = Mode.Trigger := by
      rw [(start_attack_keeps s2).2.2.1]
      exact hm2
    have hphase : (start_attack s2).phase ≠ Phase.Idle := start_attack_phase_ne_idle s2
    unfold gainAt
    rw [hA, hH, hR]
    exact (trigger_to_idle
      ((attack_samples s2 + hold_samples s2 + release_samples s2).toNat + 1)
      (start_attack s2) hmode hphase hsteps).2

theorem c4_trigger_cycle_witness :
    (∀ n : ℕ, 1 - c1Start.vel_depth ≤ gainAt c1Start n ∧ gainAt c1Start n ≤ 1) ∧
    gainAt c1Start
      ((attack_samples c1Start + hold_samples c1Start + release_samples c1Start).toNat) = 1 :=
  c4_trigger_cycle c1Config [0x90, 36, 127] c1Start
    (by with_unfolding_all decide) rfl (by norm_num)
    (by with_unfolding_all decide) (by with_unfolding_all decide)
    (by with_unfolding_all decide) (by with_unfolding_all decide) rfl
